import Mathlib

/-!
Verification development for the xlsx repository (style interning / resolution
engine in `xmlStyle.go`, and the Redis-backed cell store with its binary
row/cell codec in `redis.go`).

The Go code is shallowly embedded: structs become Lean structures, methods
become functions, the Redis backend becomes an explicit state value, and the
binary record becomes a list of natural-number symbols.  Functions whose
source lives in this repository but outside the provided files (the low-level
`read*`/`write*` codec primitives, the backend key-naming helpers,
`compareFormatString`, `writeRow`) are modelled from the specification and
carry a doc comment saying so.
-/

/- ===================  Binary codec primitives  =================== -/

/-- Modelled from the spec: the codec primitives (`writeBool`, `readBool`,
`writeInt`, `readInt`, `writeString`, `readString`, `writeEndOfRecord`,
`readEndOfRecord`) are repository code not present in the provided sources.
The spec (§4.5) requires each primitive to be fixed-width or length-prefixed
(self-delimiting) with an explicit end-of-record marker.  We model the byte
stream as a list of natural-number symbols.  A boolean is one symbol. -/
def writeBoolS (b : Bool) : List Nat :=
  [if b then 1 else 0]

/-- Modelled from the spec: boolean reader, inverse of `writeBoolS`. -/
def readBoolS : List Nat → Option (Bool × List Nat)
  | [] => none
  | b :: r => some (b == 1, r)

/-- Modelled from the spec: a natural number is written as its little-endian
decimal digits followed by a terminator symbol (a self-delimiting integer
encoding, as used by the length prefixes of the record format). -/
def writeNatS (n : Nat) : List Nat :=
  Nat.digits 10 n ++ [59]

/-- Modelled from the spec: natural-number reader, inverse of `writeNatS`. -/
def readNatS : List Nat → Option (Nat × List Nat)
  | [] => none
  | b :: r =>
    if b == 59 then some (0, r)
    else
      match readNatS r with
      | some (m, r2) => some (b + 10 * m, r2)
      | none => none

/-- Modelled from the spec: a Go `int` is written as an optional sign symbol
followed by the magnitude.  45 is the sign marker ('-'). -/
def writeIntS (i : Int) : List Nat :=
  (if i < 0 then [45] else []) ++ writeNatS i.natAbs

/-- Modelled from the spec: integer reader, inverse of `writeIntS`. -/
def readIntS : List Nat → Option (Int × List Nat)
  | [] => none
  | b :: r =>
    if b == 45 then
      match readNatS r with
      | some (m, r2) => some (-(m : Int), r2)
      | none => none
    else
      match readNatS (b :: r) with
      | some (m, r2) => some ((m : Int), r2)
      | none => none

/-- Modelled from the spec: a string is length-prefixed, then one symbol per
character (the code point). -/
def writeStringS (s : String) : List Nat :=
  writeNatS s.data.length ++ s.data.map Char.toNat

/-- Modelled from the spec: reads `n` characters. -/
def readCharsS : Nat → List Nat → Option (List Char × List Nat)
  | 0, r => some ([], r)
  | _ + 1, [] => none
  | n + 1, b :: r =>
    match readCharsS n r with
    | some (cs, r2) => some (Char.ofNat b :: cs, r2)
    | none => none

/-- Modelled from the spec: string reader, inverse of `writeStringS`. -/
def readStringS (s : List Nat) : Option (String × List Nat) :=
  match readNatS s with
  | some (n, r) =>
    match readCharsS n r with
    | some (cs, r2) => some (⟨cs⟩, r2)
    | none => none
  | none => none

/-- Modelled from the spec: the explicit end-of-record marker is the symbol 10
(a newline byte). -/
def writeEndS : List Nat :=
  [10]

/-- Modelled from the spec: end-of-record check; fails unless the next symbol
is exactly the marker. -/
def readEndS : List Nat → Option (List Nat)
  | 10 :: r => some r
  | _ => none

/-- Modelled from the spec: a floating point value (row height, font size) is
modelled as a rational number and written as numerator then denominator. -/
def writeFloatS (q : Rat) : List Nat :=
  writeIntS q.num ++ writeNatS q.den

/-- Modelled from the spec: float reader, inverse of `writeFloatS`. -/
def readFloatS (s : List Nat) : Option (Rat × List Nat) :=
  match readIntS s with
  | some (n, r) =>
    match readNatS r with
    | some (d, r2) => some ((n : Rat) / (d : Rat), r2)
    | none => none
  | none => none

/- ===================  Cell data model (redis.go codec)  =================== -/

/-- The resolved `Border` component of a `Style` (style.go, used by
`populateStyleFromXf` and persisted by the style sub-record). -/
structure SBorder where
  left : String
  leftColor : String
  right : String
  rightColor : String
  top : String
  topColor : String
  bottom : String
  bottomColor : String
  deriving Repr, DecidableEq

/-- The resolved `Fill` component of a `Style`. -/
structure SFill where
  patternType : String
  fgColor : String
  bgColor : String
  deriving Repr, DecidableEq

/-- The resolved `Font` component of a `Style`.  `size` is Go's float64,
modelled as a rational. -/
structure SFont where
  size : Rat
  name : String
  family : Int
  charset : Int
  color : String
  bold : Bool
  italic : Bool
  underline : Bool
  strike : Bool
  deriving Repr, DecidableEq

/-- The resolved `Alignment` component of a `Style`. -/
structure SAlignment where
  horizontal : String
  indent : Int
  shrinkToFit : Bool
  textRotation : Int
  vertical : String
  wrapText : Bool
  deriving Repr, DecidableEq

/-- The resolved `Style` value (style.go): the denormalized output of
`getStyle`, also persisted as the cell record's style sub-record. -/
structure Style where
  border : SBorder
  fill : SFill
  font : SFont
  applyBorder : Bool
  applyFill : Bool
  applyFont : Bool
  applyAlignment : Bool
  alignment : SAlignment
  namedStyleIndex : Option Int
  deriving Repr, DecidableEq

/-- The all-zero `Style` value (Go's `&Style{}`). -/
def emptyStyle : Style :=
  { border := { left := "", leftColor := "", right := "", rightColor := ""
              , top := "", topColor := "", bottom := "", bottomColor := "" }
  , fill := { patternType := "", fgColor := "", bgColor := "" }
  , font := { size := 0, name := "", family := 0, charset := 0, color := ""
            , bold := false, italic := false, underline := false, strike := false }
  , applyBorder := false, applyFill := false, applyFont := false
  , applyAlignment := false
  , alignment := { horizontal := "", indent := 0, shrinkToFit := false
                 , textRotation := 0, vertical := "", wrapText := false }
  , namedStyleIndex := none }

/-- The `xlsxDataValidation` value attached to a cell (fields as exercised by
the repository's Redis cell-store test). -/
structure DataValidation where
  allowBlank : Bool
  showInputMessage : Bool
  showErrorMessage : Bool
  dvType : String
  sqref : String
  formula1 : String
  formula2 : String
  dvOperator : String
  errorStyle : Option String
  errorTitle : Option String
  dvError : Option String
  promptTitle : Option String
  prompt : Option String
  deriving Repr, DecidableEq

/-- A cell hyperlink: display string, target link and tooltip. -/
structure Hyperlink where
  displayString : String
  link : String
  tooltip : String
  deriving Repr, DecidableEq

/-- The persisted fields of a `Cell` (cell.go), in the shape read and written
by `RedisRow.readCell` / `RedisRow.writeCell`.  A rich-text run is modelled as
its text (run formatting is pass-through storage, out of the spec's scope).
In-memory-only fields (`modified`, the `Row` back pointer) are omitted. -/
structure Cell where
  value : String
  formula : String
  style : Option Style
  numFmt : String
  date1904 : Bool
  hidden : Bool
  hMerge : Int
  vMerge : Int
  cellType : Int
  dataValidation : Option DataValidation
  hyperlink : Hyperlink
  num : Int
  richText : List String
  deriving Repr, DecidableEq

/-- Modelled from the spec: `writeRichText` — the rich-text sub-sequence is
length-prefixed, one length-prefixed text per run. -/
def writeRichTextS (l : List String) : List Nat :=
  writeNatS l.length ++ (l.map writeStringS).flatten

/-- Modelled from the spec: reads `n` rich-text runs. -/
def readRunsS : Nat → List Nat → Option (List String × List Nat)
  | 0, r => some ([], r)
  | n + 1, r =>
    match readStringS r with
    | some (s, r2) =>
      match readRunsS n r2 with
      | some (l, r3) => some (s :: l, r3)
      | none => none
    | none => none

/-- Modelled from the spec: `readRichText`, inverse of `writeRichTextS`. -/
def readRichTextS (s : List Nat) : Option (List String × List Nat) :=
  match readNatS s with
  | some (n, r) => readRunsS n r
  | none => none

/-- Modelled from the spec: an optional string is written as a presence flag
followed by the string (empty when absent). -/
def writeOptStringS (o : Option String) : List Nat :=
  writeBoolS o.isSome ++ writeStringS (o.getD "")

/-- Modelled from the spec: optional-string reader, inverse of
`writeOptStringS`. -/
def readOptStringS (s : List Nat) : Option (Option String × List Nat) :=
  match readBoolS s with
  | some (present, r) =>
    match readStringS r with
    | some (v, r2) => some (if present then some v else none, r2)
    | none => none
  | none => none

/-- Modelled from the spec: an optional integer is written as a presence flag
followed by the integer (zero when absent). -/
def writeOptIntS (o : Option Int) : List Nat :=
  writeBoolS o.isSome ++ writeIntS (o.getD 0)

/-- Modelled from the spec: optional-integer reader, inverse of
`writeOptIntS`. -/
def readOptIntS (s : List Nat) : Option (Option Int × List Nat) :=
  match readBoolS s with
  | some (present, r) =>
    match readIntS r with
    | some (v, r2) => some (if present then some v else none, r2)
    | none => none
  | none => none

/-- Modelled from the spec: `writeStyle` — the style sub-record written after
the cell record's end-of-record marker when the has-style flag is set.  Fields
in declaration order: border sides and colors, fill, font, alignment, apply
flags, named-style index. -/
def writeStyleS (st : Style) : List Nat :=
  writeStringS st.border.left ++ writeStringS st.border.leftColor ++
  writeStringS st.border.right ++ writeStringS st.border.rightColor ++
  writeStringS st.border.top ++ writeStringS st.border.topColor ++
  writeStringS st.border.bottom ++ writeStringS st.border.bottomColor ++
  writeStringS st.fill.patternType ++ writeStringS st.fill.fgColor ++
  writeStringS st.fill.bgColor ++
  writeFloatS st.font.size ++ writeStringS st.font.name ++
  writeIntS st.font.family ++ writeIntS st.font.charset ++
  writeStringS st.font.color ++ writeBoolS st.font.bold ++
  writeBoolS st.font.italic ++ writeBoolS st.font.underline ++
  writeBoolS st.font.strike ++
  writeStringS st.alignment.horizontal ++ writeIntS st.alignment.indent ++
  writeBoolS st.alignment.shrinkToFit ++ writeIntS st.alignment.textRotation ++
  writeStringS st.alignment.vertical ++ writeBoolS st.alignment.wrapText ++
  writeBoolS st.applyBorder ++ writeBoolS st.applyFill ++
  writeBoolS st.applyFont ++ writeBoolS st.applyAlignment ++
  writeOptIntS st.namedStyleIndex

/-- Modelled from the spec: `readStyle`, inverse of `writeStyleS`. -/
def readStyleS (s : List Nat) : Option (Style × List Nat) :=
  match readStringS s with
  | none => none
  | some (bl, s) =>
  match readStringS s with
  | none => none
  | some (blc, s) =>
  match readStringS s with
  | none => none
  | some (br, s) =>
  match readStringS s with
  | none => none
  | some (brc, s) =>
  match readStringS s with
  | none => none
  | some (bt, s) =>
  match readStringS s with
  | none => none
  | some (btc, s) =>
  match readStringS s with
  | none => none
  | some (bb, s) =>
  match readStringS s with
  | none => none
  | some (bbc, s) =>
  match readStringS s with
  | none => none
  | some (fp, s) =>
  match readStringS s with
  | none => none
  | some (ffg, s) =>
  match readStringS s with
  | none => none
  | some (fbg, s) =>
  match readFloatS s with
  | none => none
  | some (fsz, s) =>
  match readStringS s with
  | none => none
  | some (fn, s) =>
  match readIntS s with
  | none => none
  | some (ffam, s) =>
  match readIntS s with
  | none => none
  | some (fch, s) =>
  match readStringS s with
  | none => none
  | some (fc, s) =>
  match readBoolS s with
  | none => none
  | some (fb, s) =>
  match readBoolS s with
  | none => none
  | some (fi, s) =>
  match readBoolS s with
  | none => none
  | some (fu, s) =>
  match readBoolS s with
  | none => none
  | some (fst, s) =>
  match readStringS s with
  | none => none
  | some (ah, s) =>
  match readIntS s with
  | none => none
  | some (ai, s) =>
  match readBoolS s with
  | none => none
  | some (ash, s) =>
  match readIntS s with
  | none => none
  | some (art, s) =>
  match readStringS s with
  | none => none
  | some (av, s) =>
  match readBoolS s with
  | none => none
  | some (aw, s) =>
  match readBoolS s with
  | none => none
  | some (apb, s) =>
  match readBoolS s with
  | none => none
  | some (apf, s) =>
  match readBoolS s with
  | none => none
  | some (apfn, s) =>
  match readBoolS s with
  | none => none
  | some (apa, s) =>
  match readOptIntS s with
  | none => none
  | some (nsi, s) =>
    some ({ border := { left := bl, leftColor := blc, right := br
                      , rightColor := brc, top := bt, topColor := btc
                      , bottom := bb, bottomColor := bbc }
          , fill := { patternType := fp, fgColor := ffg, bgColor := fbg }
          , font := { size := fsz, name := fn, family := ffam, charset := fch
                    , color := fc, bold := fb, italic := fi, underline := fu
                    , strike := fst }
          , applyBorder := apb, applyFill := apf, applyFont := apfn
          , applyAlignment := apa
          , alignment := { horizontal := ah, indent := ai, shrinkToFit := ash
                         , textRotation := art, vertical := av, wrapText := aw }
          , namedStyleIndex := nsi }, s)

/-- Modelled from the spec: `writeDataValidation` — the data-validation
sub-record written after the end-of-record marker when the
has-data-validation flag is set. -/
def writeDataValidationS (dv : DataValidation) : List Nat :=
  writeBoolS dv.allowBlank ++ writeBoolS dv.showInputMessage ++
  writeBoolS dv.showErrorMessage ++ writeStringS dv.dvType ++
  writeStringS dv.sqref ++ writeStringS dv.formula1 ++
  writeStringS dv.formula2 ++ writeStringS dv.dvOperator ++
  writeOptStringS dv.errorStyle ++ writeOptStringS dv.errorTitle ++
  writeOptStringS dv.dvError ++ writeOptStringS dv.promptTitle ++
  writeOptStringS dv.prompt

/-- Modelled from the spec: `readDataValidation`, inverse of
`writeDataValidationS`. -/
def readDataValidationS (s : List Nat) : Option (DataValidation × List Nat) :=
  match readBoolS s with
  | none => none
  | some (ab, s) =>
  match readBoolS s with
  | none => none
  | some (sim, s) =>
  match readBoolS s with
  | none => none
  | some (sem, s) =>
  match readStringS s with
  | none => none
  | some (ty, s) =>
  match readStringS s with
  | none => none
  | some (sq, s) =>
  match readStringS s with
  | none => none
  | some (f1, s) =>
  match readStringS s with
  | none => none
  | some (f2, s) =>
  match readStringS s with
  | none => none
  | some (op, s) =>
  match readOptStringS s with
  | none => none
  | some (es, s) =>
  match readOptStringS s with
  | none => none
  | some (et, s) =>
  match readOptStringS s with
  | none => none
  | some (er, s) =>
  match readOptStringS s with
  | none => none
  | some (pt, s) =>
  match readOptStringS s with
  | none => none
  | some (pr, s) =>
    some ({ allowBlank := ab, showInputMessage := sim, showErrorMessage := sem
          , dvType := ty, sqref := sq, formula1 := f1, formula2 := f2
          , dvOperator := op, errorStyle := es, errorTitle := et
          , dvError := er, promptTitle := pt, prompt := pr }, s)

/-- The byte record produced by `RedisRow.writeCell` (redis.go:137-215),
field for field in the source's order: a cell-is-nil flag; for a nil cell only
the end-of-record marker; otherwise value, formula, has-style flag, number
format, date-1904 flag, hidden flag, horizontal merge, vertical merge, cell
type, has-data-validation flag, hyperlink display/link/tooltip, column
number, rich text, the end-of-record marker, then conditionally the style
sub-record and the data-validation sub-record. -/
def writeCellRecord : Option Cell → List Nat
  | none => writeBoolS true ++ writeEndS
  | some c =>
    writeBoolS false ++
    writeStringS c.value ++
    writeStringS c.formula ++
    writeBoolS c.style.isSome ++
    writeStringS c.numFmt ++
    writeBoolS c.date1904 ++
    writeBoolS c.hidden ++
    writeIntS c.hMerge ++
    writeIntS c.vMerge ++
    writeIntS c.cellType ++
    writeBoolS c.dataValidation.isSome ++
    writeStringS c.hyperlink.displayString ++
    writeStringS c.hyperlink.link ++
    writeStringS c.hyperlink.tooltip ++
    writeIntS c.num ++
    writeRichTextS c.richText ++
    writeEndS ++
    (match c.style with
     | some st => writeStyleS st
     | none => []) ++
    (match c.dataValidation with
     | some dv => writeDataValidationS dv
     | none => [])

/-- The decoder of `RedisRow.readCell` (redis.go:53-135), reading fields in
the exact same order and with the same presence-flag interpretation as the
writer, with the end-of-record marker verified before the optional style and
data-validation sub-records. -/
def readCellRecord (s : List Nat) : Option (Option Cell × List Nat) :=
  match readBoolS s with
  | none => none
  | some (cellIsNil, s) =>
  if cellIsNil then
    match readEndS s with
    | none => none
    | some s => some (none, s)
  else
  match readStringS s with
  | none => none
  | some (value, s) =>
  match readStringS s with
  | none => none
  | some (formula, s) =>
  match readBoolS s with
  | none => none
  | some (hasStyle, s) =>
  match readStringS s with
  | none => none
  | some (numFmt, s) =>
  match readBoolS s with
  | none => none
  | some (date1904, s) =>
  match readBoolS s with
  | none => none
  | some (hidden, s) =>
  match readIntS s with
  | none => none
  | some (hMerge, s) =>
  match readIntS s with
  | none => none
  | some (vMerge, s) =>
  match readIntS s with
  | none => none
  | some (cellType, s) =>
  match readBoolS s with
  | none => none
  | some (hasDataValidation, s) =>
  match readStringS s with
  | none => none
  | some (display, s) =>
  match readStringS s with
  | none => none
  | some (link, s) =>
  match readStringS s with
  | none => none
  | some (tooltip, s) =>
  match readIntS s with
  | none => none
  | some (num, s) =>
  match readRichTextS s with
  | none => none
  | some (richText, s) =>
  match readEndS s with
  | none => none
  | some s =>
  match (if hasStyle then (readStyleS s).map (fun p => (some p.1, p.2))
         else some (none, s)) with
  | none => none
  | some (style, s) =>
  match (if hasDataValidation then
           (readDataValidationS s).map (fun p => (some p.1, p.2))
         else some (none, s)) with
  | none => none
  | some (dataValidation, s) =>
    some (some { value := value, formula := formula, style := style
               , numFmt := numFmt, date1904 := date1904, hidden := hidden
               , hMerge := hMerge, vMerge := vMerge, cellType := cellType
               , dataValidation := dataValidation
               , hyperlink := { displayString := display, link := link
                              , tooltip := tooltip }
               , num := num, richText := richText }, s)

/- ===================  Style sheet data model (xmlStyle.go)  =================== -/

/-- `xlsxVal` (xmlStyle.go): a wrapped attribute value. -/
structure xlsxVal where
  val : String
  deriving Repr, DecidableEq, Inhabited

/-- `xlsxVal.Equals` (xmlStyle.go:912-914). -/
def xlsxVal.Equals (v other : xlsxVal) : Bool :=
  v.val == other.val

/-- `xlsxColor` (xmlStyle.go:1090-1095).  Go's `*int` fields are options and
`float64` tint is a rational. -/
structure xlsxColor where
  rgb : String
  theme : Option Int
  tint : Rat
  indexed : Option Int
  deriving Repr, DecidableEq, Inhabited

/-- `xlsxColor.Equals` (xmlStyle.go:1097-1099): compares only the RGB field;
theme, tint and indexed references do not participate. -/
def xlsxColor.Equals (color other : xlsxColor) : Bool :=
  color.rgb == other.rgb

/-- `xlsxLine` (xmlStyle.go:1250-1253). -/
structure xlsxLine where
  style : String
  color : xlsxColor
  deriving Repr, DecidableEq, Inhabited

/-- `xlsxLine.Equals` (xmlStyle.go:1255-1257). -/
def xlsxLine.Equals (line other : xlsxLine) : Bool :=
  line.style == other.style && line.color.Equals other.color

/-- `xlsxBorder` (xmlStyle.go:1168-1173). -/
structure xlsxBorder where
  left : xlsxLine
  right : xlsxLine
  top : xlsxLine
  bottom : xlsxLine
  deriving Repr, DecidableEq, Inhabited

/-- `xlsxBorder.Equals` (xmlStyle.go:1175-1177). -/
def xlsxBorder.Equals (border other : xlsxBorder) : Bool :=
  border.left.Equals other.left && border.right.Equals other.right &&
  border.top.Equals other.top && border.bottom.Equals other.bottom

/-- `xlsxPatternFill` (xmlStyle.go:1023-1027). -/
structure xlsxPatternFill where
  patternType : String
  fgColor : xlsxColor
  bgColor : xlsxColor
  deriving Repr, DecidableEq, Inhabited

/-- `xlsxPatternFill.Equals` (xmlStyle.go:1029-1031). -/
def xlsxPatternFill.Equals (patternFill other : xlsxPatternFill) : Bool :=
  patternFill.patternType == other.patternType &&
  patternFill.fgColor.Equals other.fgColor &&
  patternFill.bgColor.Equals other.bgColor

/-- `xlsxFill` (xmlStyle.go:984-986). -/
structure xlsxFill where
  patternFill : xlsxPatternFill
  deriving Repr, DecidableEq, Inhabited

/-- `xlsxFill.Equals` (xmlStyle.go:988-990). -/
def xlsxFill.Equals (fill other : xlsxFill) : Bool :=
  fill.patternFill.Equals other.patternFill

/-- `xlsxFont` (xmlStyle.go:785-796).  Go's `*xlsxVal` fields are options. -/
structure xlsxFont where
  sz : xlsxVal
  name : xlsxVal
  family : xlsxVal
  charset : xlsxVal
  color : xlsxColor
  b : Option xlsxVal
  i : Option xlsxVal
  u : Option xlsxVal
  scheme : Option xlsxVal
  strike : Option xlsxVal
  deriving Repr, DecidableEq, Inhabited

/-- `xlsxFont.Equals` (xmlStyle.go:798-809): nil-ness of bold/italic/underline
must agree, then size, name, family, charset and color (RGB only) are
compared.  The `scheme` and `strike` fields, and the string values stored
inside `b`/`i`/`u`, do not participate. -/
def xlsxFont.Equals (font other : xlsxFont) : Bool :=
  if (font.b.isNone && other.b.isSome) || (font.b.isSome && other.b.isNone) then
    false
  else if (font.i.isNone && other.i.isSome) || (font.i.isSome && other.i.isNone) then
    false
  else if (font.u.isNone && other.u.isSome) || (font.u.isSome && other.u.isNone) then
    false
  else
    font.sz.Equals other.sz && font.name.Equals other.name &&
    font.family.Equals other.family && font.charset.Equals other.charset &&
    font.color.Equals other.color

/-- `xlsxAlignment` (xmlStyle.go:1488-1495). -/
structure xlsxAlignment where
  horizontal : String
  indent : Int
  shrinkToFit : Bool
  textRotation : Int
  vertical : String
  wrapText : Bool
  deriving Repr, DecidableEq, Inhabited

/-- `xlsxAlignment.Equals` (xmlStyle.go:1497-1504). -/
def xlsxAlignment.Equals (alignment other : xlsxAlignment) : Bool :=
  alignment.horizontal == other.horizontal &&
  alignment.indent == other.indent &&
  alignment.shrinkToFit == other.shrinkToFit &&
  alignment.textRotation == other.textRotation &&
  alignment.vertical == other.vertical &&
  alignment.wrapText == other.wrapText

/-- `xlsxXf` (xmlStyle.go:1409-1422). -/
structure xlsxXf where
  applyAlignment : Bool
  applyBorder : Bool
  applyFont : Bool
  applyFill : Bool
  applyNumberFormat : Bool
  applyProtection : Bool
  borderId : Int
  fillId : Int
  fontId : Int
  numFmtId : Int
  xfId : Option Int
  alignment : xlsxAlignment
  deriving Repr, DecidableEq, Inhabited

/-- Go's pointer comparison on `*int` as used in `xlsxXf.Equals`: pointer
equality (which covers both-nil) or both non-nil with equal values;
extensionally this is both-none or both-some-with-equal-values. -/
def optPtrEqInt : Option Int → Option Int → Bool
  | none, none => true
  | some x, some y => x == y
  | _, _ => false

/-- `xlsxXf.Equals` (xmlStyle.go:1424-1438): compares every field except
`ApplyNumberFormat`, which the source omits. -/
def xlsxXf.Equals (xf other : xlsxXf) : Bool :=
  xf.applyAlignment == other.applyAlignment &&
  xf.applyBorder == other.applyBorder &&
  xf.applyFont == other.applyFont &&
  xf.applyFill == other.applyFill &&
  xf.applyProtection == other.applyProtection &&
  xf.borderId == other.borderId &&
  xf.fillId == other.fillId &&
  xf.fontId == other.fontId &&
  xf.numFmtId == other.numFmtId &&
  optPtrEqInt xf.xfId other.xfId &&
  xf.alignment.Equals other.alignment

/-- `xlsxFonts` (xmlStyle.go:719-724): a counted table of fonts. -/
structure xlsxFonts where
  count : Int
  font : List xlsxFont
  deriving Repr, DecidableEq, Inhabited

/-- `xlsxFills` (xmlStyle.go:920-923). -/
structure xlsxFills where
  count : Int
  fill : List xlsxFill
  deriving Repr, DecidableEq, Inhabited

/-- `xlsxBorders` (xmlStyle.go:1105-1108). -/
structure xlsxBorders where
  count : Int
  border : List xlsxBorder
  deriving Repr, DecidableEq, Inhabited

/-- `xlsxCellXfs` (xmlStyle.go:1363-1366). -/
structure xlsxCellXfs where
  count : Int
  xf : List xlsxXf
  deriving Repr, DecidableEq, Inhabited

/-- `xlsxCellStyleXfs` (xmlStyle.go:1316-1319). -/
structure xlsxCellStyleXfs where
  count : Int
  xf : List xlsxXf
  deriving Repr, DecidableEq, Inhabited

/-- `xlsxNumFmt` (xmlStyle.go:686-689). -/
structure xlsxNumFmt where
  numFmtId : Int
  formatCode : String
  deriving Repr, DecidableEq, Inhabited

/-- `xlsxNumFmts` (xmlStyle.go:641-644). -/
structure xlsxNumFmts where
  count : Int
  numFmt : List xlsxNumFmt
  deriving Repr, DecidableEq, Inhabited

/-- `xlsxCellStyle` (xmlStyle.go:1302-1310). -/
structure xlsxCellStyle where
  builtInId : Option Int
  customBuiltIn : Option Bool
  hidden : Option Bool
  iLevel : Option Bool
  name : String
  xfId : Int
  deriving Repr, DecidableEq, Inhabited

/-- `xlsxCellStyles` (xmlStyle.go:1259-1263). -/
structure xlsxCellStyles where
  count : Int
  cellStyle : List xlsxCellStyle
  deriving Repr, DecidableEq, Inhabited

/-- `xlsxColors` (xmlStyle.go:1551-1554).  A nil `IndexedColors` slice selects
the legacy palette, so it is an option; `mruColors` is unused by the core. -/
structure xlsxColors where
  indexedColors : Option (List String)
  deriving Repr, DecidableEq, Inhabited

/-- The fixed legacy `xlsxIndexedColors` palette (xmlStyle.go:95-160). -/
def xlsxIndexedColors : List String :=
  [ "FF000000", "FFFFFFFF", "FFFF0000", "FF00FF00", "FF0000FF", "FFFFFF00"
  , "FFFF00FF", "FF00FFFF", "FF000000", "FFFFFFFF", "FFFF0000", "FF00FF00"
  , "FF0000FF", "FFFFFF00", "FFFF00FF", "FF00FFFF", "FF800000", "FF008000"
  , "FF000080", "FF808000", "FF800080", "FF008080", "FFC0C0C0", "FF808080"
  , "FF9999FF", "FF993366", "FFFFFFCC", "FFCCFFFF", "FF660066", "FFFF8080"
  , "FF0066CC", "FFCCCCFF", "FF000080", "FFFF00FF", "FFFFFF00", "FF00FFFF"
  , "FF800080", "FF800000", "FF008080", "FF0000FF", "FF00CCFF", "FFCCFFFF"
  , "FFCCFFCC", "FFFFFF99", "FF99CCFF", "FFFF99CC", "FFCC99FF", "FFFFCC99"
  , "FF3366FF", "FF33CCCC", "FF99CC00", "FFFFCC00", "FFFF9900", "FFFF6600"
  , "FF666699", "FF969696", "FF003366", "FF339966", "FF003300", "FF333300"
  , "FF993300", "FF993366", "FF333399", "FF333333" ]

/-- `xlsxColors.indexedColor` (xmlStyle.go:1556-1562): 1-based lookup in the
custom palette when configured, else in the legacy palette.  The Go code
panics on an out-of-range index; the model totalizes with "" (no claim
exercises an out-of-range indexed color). -/
def xlsxColors.indexedColor (c : xlsxColors) (index : Int) : String :=
  match c.indexedColors with
  | some l => l.getD (index - 1).toNat ""
  | none => xlsxIndexedColors.getD (index - 1).toNat ""

/-- `xlsxStyleSheet` (xmlStyle.go:166-187).  The theme collaborator (whose
`themeColor` method lives outside the provided sources) is carried as its
resolver function; the Go maps become association lists.  The
`parsedNumFmtTable` cache is omitted (no claim concerns it). -/
structure xlsxStyleSheet where
  fonts : xlsxFonts
  fills : xlsxFills
  borders : xlsxBorders
  colors : Option xlsxColors
  cellStyles : Option xlsxCellStyles
  cellStyleXfs : Option xlsxCellStyleXfs
  cellXfs : xlsxCellXfs
  numFmts : Option xlsxNumFmts
  theme : Option (Int → Rat → String)
  styleCache : List (Int × Style)
  numFmtRefTable : Option (List (Int × xlsxNumFmt))

/-- `argbValue` (xmlStyle.go:337-345): theme reference first, then indexed
color, else the raw RGB string. -/
def xlsxStyleSheet.argbValue (styles : xlsxStyleSheet) (color : xlsxColor) : String :=
  match color.theme, styles.theme with
  | some t, some themeColor => themeColor t color.tint
  | _, _ =>
    match color.indexed, styles.colors with
    | some idx, some cols => cols.indexedColor idx
    | _, _ => color.rgb

/- ===================  Style interning (add*)  =================== -/

/-- The scan of a `for index, x = range table` loop returning the first index
whose entry `Equals` the candidate. -/
def scanIdx {α : Type} (eq : α → α → Bool) (v : α) : List α → Option Nat
  | [] => none
  | x :: xs => if eq x v then some 0 else (scanIdx eq v xs).map (fun n => n + 1)

/-- The common body of `addFont`/`addFill`/`addBorder`/`addCellXf`/
`addCellStyleXf` (xmlStyle.go:392-463): scan for an `Equals` entry and return
its index, else append the candidate, return the current `Count` as its index
and increment `Count`.  Result: (returned index, new count, new table). -/
def internAdd {α : Type} (eq : α → α → Bool) (count : Int) (l : List α)
    (v : α) : Int × Int × List α :=
  match scanIdx eq v l with
  | some idx => ((idx : Int), count, l)
  | none => (count, count + 1, l ++ [v])

/-- `addFont` (xmlStyle.go:392-406): candidates with an empty name short
circuit to index 0 without scanning or appending. -/
def xlsxStyleSheet.addFont (styles : xlsxStyleSheet) (xFont : xlsxFont) :
    Int × xlsxStyleSheet :=
  if xFont.name.val == "" then (0, styles)
  else
    let r := internAdd xlsxFont.Equals styles.fonts.count styles.fonts.font xFont
    (r.1, { styles with fonts := { count := r.2.1, font := r.2.2 } })

/-- `addFill` (xmlStyle.go:408-419). -/
def xlsxStyleSheet.addFill (styles : xlsxStyleSheet) (xFill : xlsxFill) :
    Int × xlsxStyleSheet :=
  let r := internAdd xlsxFill.Equals styles.fills.count styles.fills.fill xFill
  (r.1, { styles with fills := { count := r.2.1, fill := r.2.2 } })

/-- `addBorder` (xmlStyle.go:421-433). -/
def xlsxStyleSheet.addBorder (styles : xlsxStyleSheet) (xBorder : xlsxBorder) :
    Int × xlsxStyleSheet :=
  let r := internAdd xlsxBorder.Equals styles.borders.count styles.borders.border xBorder
  (r.1, { styles with borders := { count := r.2.1, border := r.2.2 } })

/-- `addCellStyleXf` (xmlStyle.go:435-449): a nil `CellStyleXfs` table is
first replaced by an empty one. -/
def xlsxStyleSheet.addCellStyleXf (styles : xlsxStyleSheet) (xCellStyleXf : xlsxXf) :
    Int × xlsxStyleSheet :=
  let cur := styles.cellStyleXfs.getD { count := 0, xf := [] }
  let r := internAdd xlsxXf.Equals cur.count cur.xf xCellStyleXf
  (r.1, { styles with cellStyleXfs := some { count := r.2.1, xf := r.2.2 } })

/-- `addCellXf` (xmlStyle.go:451-463). -/
def xlsxStyleSheet.addCellXf (styles : xlsxStyleSheet) (xCellXf : xlsxXf) :
    Int × xlsxStyleSheet :=
  let r := internAdd xlsxXf.Equals styles.cellXfs.count styles.cellXfs.xf xCellXf
  (r.1, { styles with cellXfs := { count := r.2.1, xf := r.2.2 } })

/- ===================  Number formats (xmlStyle.go)  =================== -/

/-- Excel's built-in number formats all have ids below 164
(xmlStyle.go:24). -/
def builtinNumFmtsCount : Int := 163

/-- The `builtInNumFmt` table (xmlStyle.go:29-62), id and format code. -/
def builtInNumFmt : List (Int × String) :=
  [ (0, "general"), (1, "0"), (2, "0.00"), (3, "#,##0"), (4, "#,##0.00")
  , (9, "0%"), (10, "0.00%"), (11, "0.00e+00"), (12, "# ?/?"), (13, "# ??/??")
  , (14, "mm-dd-yy"), (15, "d-mmm-yy"), (16, "d-mmm"), (17, "mmm-yy")
  , (18, "h:mm am/pm"), (19, "h:mm:ss am/pm"), (20, "h:mm"), (21, "h:mm:ss")
  , (22, "m/d/yy h:mm"), (37, "#,##0 ;(#,##0)"), (38, "#,##0 ;[red](#,##0)")
  , (39, "#,##0.00;(#,##0.00)"), (40, "#,##0.00;[red](#,##0.00)")
  , (41, "_(* #,##0_);_(* \\(#,##0\\);_(* \"-\"_);_(@_)")
  , (42, "_(\"$\"* #,##0_);_(\"$* \\(#,##0\\);_(\"$\"* \"-\"_);_(@_)")
  , (43, "_(* #,##0.00_);_(* \\(#,##0.00\\);_(* \"-\"??_);_(@_)")
  , (44, "_(\"$\"* #,##0.00_);_(\"$\"* \\(#,##0.00\\);_(\"$\"* \"-\"??_);_(@_)")
  , (45, "mm:ss"), (46, "[h]:mm:ss"), (47, "mmss.0"), (48, "##0.0e+0")
  , (49, "@") ]

/-- `builtInNumFmtInv` (xmlStyle.go:77-83): the inverse lookup from format
code to built-in id.  The Go code builds it by inverting the map; the format
codes are pairwise distinct, so a search of the table computes the same
function. -/
def builtInNumFmtInv (code : String) : Option Int :=
  (builtInNumFmt.find? (fun p => p.2 == code)).map (fun p => p.1)

/-- A model of the standard library's `String.toLower` (character-wise, so
that it evaluates definitionally). -/
def toLowerModel (s : String) : String :=
  ⟨s.data.map Char.toLower⟩

/-- Modelled from the spec: `compareFormatString` is repository code not in
the provided sources; the spec (§4.1) says the general test is whether the
code case-normalizes to "general". -/
def compareFormatString (a b : String) : Bool :=
  toLowerModel a == toLowerModel b

/-- Lookup in the `numFmtRefTable` map; a nil map contains nothing. -/
def numFmtRefLookup (tbl : Option (List (Int × xlsxNumFmt))) (id : Int) :
    Option xlsxNumFmt :=
  match tbl with
  | none => none
  | some l => (l.find? (fun p => p.1 == id)).map (fun p => p.2)

/-- `addNumFmt` (xmlStyle.go:505-528): ignore built-in ids; if the id is not
yet in the reference table, append the format to `NumFmts.NumFmt`
(initializing nil map and nil slice), record it in the reference table and
bump the count. -/
def xlsxStyleSheet.addNumFmt (styles : xlsxStyleSheet) (xNumFmt : xlsxNumFmt) :
    xlsxStyleSheet :=
  if xNumFmt.numFmtId ≤ builtinNumFmtsCount then styles
  else
    match numFmtRefLookup styles.numFmtRefTable xNumFmt.numFmtId with
    | some _ => styles
    | none =>
      let tbl := styles.numFmtRefTable.getD []
      let nf := styles.numFmts.getD { count := 0, numFmt := [] }
      { styles with
        numFmts := some { count := nf.count + 1
                        , numFmt := nf.numFmt ++ [xNumFmt] }
        numFmtRefTable := some (tbl ++ [(xNumFmt.numFmtId, xNumFmt)]) }

/-- The id scan of `newNumFmt`'s allocation loop (xmlStyle.go:488-500): walk
upward from `id` while the reference table contains the id.  The Go loop is
unbounded; over a finite table a free id is reached within (table size + 1)
steps, so that fuel computes the loop's result. -/
def firstFreeAux (tbl : Option (List (Int × xlsxNumFmt))) :
    Nat → Int → Int
  | 0, id => id
  | n + 1, id =>
    match numFmtRefLookup tbl id with
    | some _ => firstFreeAux tbl n (id + 1)
    | none => id

/-- `newNumFmt` (xmlStyle.go:466-502): "general" first, then the built-in
table, then the registered custom formats, else allocate the first unused id
starting at 164 and register it via `addNumFmt`. -/
def xlsxStyleSheet.newNumFmt (styles : xlsxStyleSheet) (formatCode : String) :
    xlsxNumFmt × xlsxStyleSheet :=
  if compareFormatString formatCode "general" then
    ({ numFmtId := 0, formatCode := "general" }, styles)
  else
    match builtInNumFmtInv formatCode with
    | some numFmtId => ({ numFmtId := numFmtId, formatCode := formatCode }, styles)
    | none =>
      match (styles.numFmts.getD { count := 0, numFmt := [] }).numFmt.find?
          (fun numFmt => formatCode == numFmt.formatCode) with
      | some numFmt => (numFmt, styles)
      | none =>
        let fuel := (styles.numFmtRefTable.getD []).length + 1
        let numFmtId := firstFreeAux styles.numFmtRefTable fuel (builtinNumFmtsCount + 1)
        let styles2 := styles.addNumFmt { numFmtId := numFmtId, formatCode := formatCode }
        ({ numFmtId := numFmtId, formatCode := formatCode }, styles2)

/- ===================  Style resolution (xmlStyle.go)  =================== -/

/-- The numeric value of a run of decimal digits, when the character list is
nonempty and all digits. -/
def digitsVal? (l : List Char) : Option Nat :=
  if l.isEmpty then none
  else if l.all Char.isDigit then
    some (l.foldl (fun a c => 10 * a + (c.toNat - 48)) 0)
  else none

/-- A model of the standard library's `strconv.Atoi` on the inputs the
repository feeds it (decimal strings with optional sign); the Go call sites
discard the error, leaving 0 on malformed input. -/
def atoiModel (s : String) : Int :=
  match s.data with
  | '-' :: r =>
    match digitsVal? r with
    | some n => -(n : Int)
    | none => 0
  | l =>
    match digitsVal? l with
    | some n => (n : Int)
    | none => 0

/-- Splitting a character list at a separator (a structural model of the
standard library's split, used for decimal points and for the ":" of backend
keys). -/
def splitCharAux (sep : Char) (l : List Char) : List (List Char) :=
  match l with
  | [] => [[]]
  | c :: r =>
    let rest := splitCharAux sep r
    if c == sep then [] :: rest
    else
      match rest with
      | h :: t => (c :: h) :: t
      | [] => [[c]]

/-- A model of the standard library's `strconv.ParseFloat` on plain decimal
strings (optional sign, integer part, optional fraction); the Go call site
discards the error, leaving 0 on malformed input.  Exponent and other exotic
forms are out of scope. -/
def parseFloatModel (s : String) : Rat :=
  let core : List Char → Option Rat := fun l =>
    match splitCharAux '.' l with
    | [a] => (digitsVal? a).map (fun n => (n : Rat))
    | [a, b] =>
      match digitsVal? a, digitsVal? b with
      | some na, some nb => some ((na : Rat) + (nb : Rat) / ((10 : Rat) ^ b.length))
      | _, _ => none
    | _ => none
  let signed : Option Rat :=
    match s.data with
    | '-' :: r => (core r).map (fun q => -q)
    | l => core l
  signed.getD 0

/-- The border block of `populateStyleFromXf` (xmlStyle.go:242-253). -/
def populateBorder (styles : xlsxStyleSheet) (style : Style) (xf : xlsxXf) :
    Style :=
  if xf.borderId > -1 && xf.borderId < styles.borders.count then
    let border := styles.borders.border.getD xf.borderId.toNat default
    { style with border :=
      { left := border.left.style, leftColor := border.left.color.rgb
      , right := border.right.style, rightColor := border.right.color.rgb
      , top := border.top.style, topColor := border.top.color.rgb
      , bottom := border.bottom.style, bottomColor := border.bottom.color.rgb } }
  else style

/-- The fill block of `populateStyleFromXf` (xmlStyle.go:255-260). -/
def populateFill (styles : xlsxStyleSheet) (style : Style) (xf : xlsxXf) :
    Style :=
  if xf.fillId > -1 && xf.fillId < styles.fills.count then
    let xFill := styles.fills.fill.getD xf.fillId.toNat default
    { style with fill :=
      { patternType := xFill.patternFill.patternType
      , fgColor := styles.argbValue xFill.patternFill.fgColor
      , bgColor := styles.argbValue xFill.patternFill.bgColor } }
  else style

/-- The font block of `populateStyleFromXf` (xmlStyle.go:262-282).  The
bold/italic/underline/strike flags are only ever set to true (non-nil marker
with value other than "0"); they are never cleared. -/
def populateFont (styles : xlsxStyleSheet) (style : Style) (xf : xlsxXf) :
    Style :=
  if xf.fontId > -1 && xf.fontId < styles.fonts.count then
    let xfont := styles.fonts.font.getD xf.fontId.toNat default
    let f := { style.font with
      size := parseFloatModel xfont.sz.val
      name := xfont.name.val
      family := atoiModel xfont.family.val
      charset := atoiModel xfont.charset.val
      color := styles.argbValue xfont.color }
    let f := match xfont.b with
      | some bv => if bv.val != "0" then { f with bold := true } else f
      | none => f
    let f := match xfont.i with
      | some iv => if iv.val != "0" then { f with italic := true } else f
      | none => f
    let f := match xfont.u with
      | some uv => if uv.val != "0" then { f with underline := true } else f
      | none => f
    let f := match xfont.strike with
      | some sv => if sv.val != "0" then { f with strike := true } else f
      | none => f
    { style with font := f }
  else style

/-- The alignment block of `populateStyleFromXf` (xmlStyle.go:283-298). -/
def populateAlign (style : Style) (xf : xlsxXf) : Style :=
  let style :=
    if xf.alignment.horizontal != "" then
      { style with alignment := { style.alignment with horizontal := xf.alignment.horizontal } }
    else style
  let style :=
    if xf.alignment.vertical != "" then
      { style with alignment := { style.alignment with vertical := xf.alignment.vertical } }
    else style
  let style := { style with alignment := { style.alignment with
    shrinkToFit := xf.alignment.shrinkToFit
    wrapText := xf.alignment.wrapText
    textRotation := xf.alignment.textRotation } }
  if xf.alignment.indent != 0 then
    { style with alignment := { style.alignment with indent := xf.alignment.indent } }
  else style

/-- `populateStyleFromXf` (xmlStyle.go:236-299): copy the four apply flags,
resolve border, fill and font by id with bounds checks against the table
`Count` fields (silently skipping out-of-range ids), then copy alignment
fields; factored into the source's four sequential blocks. -/
def xlsxStyleSheet.populateStyleFromXf (styles : xlsxStyleSheet) (style0 : Style)
    (xf : xlsxXf) : Style :=
  let style := { style0 with
    applyBorder := xf.applyBorder
    applyFill := xf.applyFill
    applyFont := xf.applyFont
    applyAlignment := xf.applyAlignment }
  populateAlign (populateFont styles (populateFill styles
    (populateBorder styles style xf) xf) xf) xf

/-- Lookup in the `styleCache` map. -/
def cacheLookup (cache : List (Int × Style)) (i : Int) : Option Style :=
  (cache.find? (fun p => p.1 == i)).map (fun p => p.2)

/-- Insertion into the `styleCache` map (map-update semantics). -/
def cacheInsert (cache : List (Int × Style)) (i : Int) (st : Style) :
    List (Int × Style) :=
  (i, st) :: cache.filter (fun p => p.1 != i)

/-- `getStyle` (xmlStyle.go:301-335): return the cached style if present;
otherwise, for an in-bounds index, resolve via `populateStyleFromXf`, cascade
the named style's apply flags when `XfId` is present and within the
`CellStyleXfs` slice, re-apply the cell format's own vertical alignment,
wrap-text and text rotation, and cache the result.  Out-of-bounds indices
yield the empty style without caching.  (For a negative `XfId` the Go code
would panic on the slice index; the claims only concern non-negative ids.)
The in-bounds computation of the style value is factored out here as
`resolveStyleAt`. -/
def resolveStyleAt (styles : xlsxStyleSheet) (styleIndex : Int) : Style :=
  let xf := styles.cellXfs.xf.getD styleIndex.toNat default
  let style := styles.populateStyleFromXf emptyStyle xf
  let style :=
    match xf.xfId, styles.cellStyleXfs with
    | some xfId, some csxfs =>
      if xfId < (csxfs.xf.length : Int) then
        let namedStyleXf := csxfs.xf.getD xfId.toNat default
        { style with
          namedStyleIndex := some xfId
          applyBorder := style.applyBorder || namedStyleXf.applyBorder
          applyFill := style.applyFill || namedStyleXf.applyFill
          applyFont := style.applyFont || namedStyleXf.applyFont
          applyAlignment := style.applyAlignment || namedStyleXf.applyAlignment }
      else style
    | _, _ => style
  let style :=
    if xf.alignment.vertical != "" then
      { style with alignment := { style.alignment with vertical := xf.alignment.vertical } }
    else style
  { style with alignment := { style.alignment with
    wrapText := xf.alignment.wrapText
    textRotation := xf.alignment.textRotation } }

/-- The dispatch of `getStyle`: cached value, or the in-bounds resolution
(`resolveStyleAt`) which is then cached, or the empty style uncached. -/
def xlsxStyleSheet.getStyle (styles : xlsxStyleSheet) (styleIndex : Int) :
    Style × xlsxStyleSheet :=
  match cacheLookup styles.styleCache styleIndex with
  | some style => (style, styles)
  | none =>
    let xfCount := styles.cellXfs.count
    if styleIndex > -1 && xfCount > 0 && styleIndex < xfCount then
      let style := resolveStyleAt styles styleIndex
      (style, { styles with styleCache := cacheInsert styles.styleCache styleIndex style })
    else (emptyStyle, styles)

/-- The package-level `defaultTheme` (xmlStyle.go:20). -/
def defaultTheme : Int := 1

/-- `reset` (xmlStyle.go:196-233): empty the font/fill/border tables,
re-install the default Arial-11 font, the two default fills and the empty
border, install the 0th `CellStyleXf` and `CellXf` required by the standard,
empty `NumFmts` and nil out the number-format reference table.  The resolved
style cache is left untouched by the source. -/
def xlsxStyleSheet.reset (styles : xlsxStyleSheet) : xlsxStyleSheet :=
  let styles := { styles with
    fonts := { count := 0, font := [] }
    fills := { count := 0, fill := [] }
    borders := { count := 0, border := [] } }
  let styles := (styles.addFont
    { sz := { val := "11" }
    , family := { val := "2" }
    , charset := { val := "" }
    , color := { rgb := "", theme := some defaultTheme, tint := 0, indexed := none }
    , name := { val := "Arial" }
    , scheme := some { val := "minor" }
    , b := none, i := none, u := none, strike := none }).2
  let styles := (styles.addFill
    { patternFill := { patternType := "none", fgColor := default, bgColor := default } }).2
  let styles := (styles.addFill
    { patternFill := { patternType := "gray125", fgColor := default, bgColor := default } }).2
  let styles := (styles.addBorder
    { left := default, right := default, top := default, bottom := default }).2
  { styles with
    cellStyleXfs := some { count := 1, xf := [default] }
    cellXfs := { count := 1, xf := [default] }
    numFmts := some { count := 0, numFmt := [] }
    numFmtRefTable := none }

/- ===================  XML marshalling (xmlStyle.go)  =================== -/

/-- `bool2Int` (xmlStyle.go:1540-1545). -/
def bool2Int (b : Bool) : Int :=
  if b then 1 else 0

/-- A model of the standard library's `xml.EscapeText` on one character. -/
def escapeChar (c : Char) : String :=
  if c == '"' then "&#34;"
  else if c == '\'' then "&#39;"
  else if c == '&' then "&amp;"
  else if c == '<' then "&lt;"
  else if c == '>' then "&gt;"
  else if c == '\t' then "&#x9;"
  else if c == '\n' then "&#xA;"
  else if c == '\r' then "&#xD;"
  else String.singleton c

/-- A model of the standard library's `xml.EscapeText`. -/
def escapeTextModel (s : String) : String :=
  String.join (s.data.map escapeChar)

/-- `xlsxNumFmt.Marshal` (xmlStyle.go:691-698). -/
def xlsxNumFmt.Marshal (numFmt : xlsxNumFmt) : String :=
  "<numFmt numFmtId=\"" ++ toString numFmt.numFmtId ++ "\" formatCode=\"" ++
    escapeTextModel numFmt.formatCode ++ "\"/>"

/-- `xlsxFont.Marshal` (xmlStyle.go:811-847): only non-empty attributes are
emitted, but the result always contains the `<font>` wrapper and so is never
the empty string. -/
def xlsxFont.Marshal (font : xlsxFont) : String :=
  let result := "<font>"
  let result := if font.sz.val != "" then
    result ++ "<sz val=\"" ++ font.sz.val ++ "\"/>" else result
  let result := if font.name.val != "" then
    result ++ "<name val=\"" ++ font.name.val ++ "\"/>" else result
  let result := if font.family.val != "" then
    result ++ "<family val=\"" ++ font.family.val ++ "\"/>" else result
  let result := if font.charset.val != "" then
    result ++ "<charset val=\"" ++ font.charset.val ++ "\"/>" else result
  let result := if font.color.rgb != "" then
    result ++ "<color rgb=\"" ++ font.color.rgb ++ "\"/>" else result
  let result := match font.color.theme with
    | some t => result ++ "<color theme=\"" ++ toString t ++ "\" />"
    | none => result
  let result := match font.scheme with
    | some s => if s.val != "" then
        result ++ "<scheme val=\"" ++ s.val ++ "\"/>" else result
    | none => result
  let result := if font.b.isSome then result ++ "<b/>" else result
  let result := if font.i.isSome then result ++ "<i/>" else result
  let result := if font.u.isSome then result ++ "<u/>" else result
  let result := if font.strike.isSome then result ++ "<strike/>" else result
  result ++ "</font>"

/-- `xlsxPatternFill.Marshal` (xmlStyle.go:1033-1052). -/
def xlsxPatternFill.Marshal (patternFill : xlsxPatternFill) : String :=
  let result := "<patternFill patternType=\"" ++ patternFill.patternType ++ "\""
  let subparts :=
    (if patternFill.fgColor.rgb != "" then
      "<fgColor rgb=\"" ++ patternFill.fgColor.rgb ++ "\"/>" else "") ++
    (if patternFill.bgColor.rgb != "" then
      "<bgColor rgb=\"" ++ patternFill.bgColor.rgb ++ "\"/>" else "")
  if patternFill.fgColor.rgb == "" && patternFill.bgColor.rgb == "" then
    result ++ "/>"
  else
    result ++ ">" ++ subparts ++ "</patternFill>"

/-- `xlsxFill.Marshal` (xmlStyle.go:992-1005): empty when the pattern type is
empty. -/
def xlsxFill.Marshal (fill : xlsxFill) : String :=
  if fill.patternFill.patternType != "" then
    "<fill>" ++ fill.patternFill.Marshal ++ "</fill>"
  else ""

/-- `marshalBorderLine` (xmlStyle.go:1180-1191). -/
def marshalBorderLine (line : xlsxLine) (name : String) : String :=
  if line.style == "" then "<" ++ name ++ "/>"
  else
    "<" ++ name ++ " style=\"" ++ line.style ++ "\">" ++
    (if line.color.rgb != "" then
      "<color rgb=\"" ++ line.color.rgb ++ "\"/>" else "") ++
    "</" ++ name ++ ">"

/-- `xlsxBorder.Marshal` (xmlStyle.go:1223-1232): always emits the four sides
inside a `<border>` wrapper, never the empty string. -/
def xlsxBorder.Marshal (border : xlsxBorder) : String :=
  "<border>" ++
  marshalBorderLine border.left "left" ++
  marshalBorderLine border.right "right" ++
  marshalBorderLine border.top "top" ++
  marshalBorderLine border.bottom "bottom" ++
  "</border>"

/-- `xlsxAlignment.Marshal` (xmlStyle.go:1506-1513): empty horizontal/vertical
default to "general"/"bottom". -/
def xlsxAlignment.Marshal (alignment : xlsxAlignment) : String :=
  let horizontal := if alignment.horizontal == "" then "general" else alignment.horizontal
  let vertical := if alignment.vertical == "" then "bottom" else alignment.vertical
  "<alignment horizontal=\"" ++ horizontal ++ "\" indent=\"" ++
    toString alignment.indent ++ "\" shrinkToFit=\"" ++
    toString (bool2Int alignment.shrinkToFit) ++ "\" textRotation=\"" ++
    toString alignment.textRotation ++ "\" vertical=\"" ++ vertical ++
    "\" wrapText=\"" ++ toString (bool2Int alignment.wrapText) ++ "\"/>"

/-- Lookup in an output renumbering map with Go's zero default. -/
def mapGetD (m : List (Int × Int)) (k : Int) : Int :=
  ((m.find? (fun p => p.1 == k)).map (fun p => p.2)).getD 0

/-- `xlsxXf.Marshal` (xmlStyle.go:1440-1451): never the empty string. -/
def xlsxXf.Marshal (xf : xlsxXf) (outputBorderMap outputFillMap outputFontMap :
    List (Int × Int)) : String :=
  let result := "<xf applyAlignment=\"" ++ toString (bool2Int xf.applyAlignment) ++
    "\" applyBorder=\"" ++ toString (bool2Int xf.applyBorder) ++
    "\" applyFont=\"" ++ toString (bool2Int xf.applyFont) ++
    "\" applyFill=\"" ++ toString (bool2Int xf.applyFill) ++
    "\" applyNumberFormat=\"" ++ toString (bool2Int xf.applyNumberFormat) ++
    "\" applyProtection=\"" ++ toString (bool2Int xf.applyProtection) ++
    "\" borderId=\"" ++ toString (mapGetD outputBorderMap xf.borderId) ++
    "\" fillId=\"" ++ toString (mapGetD outputFillMap xf.fillId) ++
    "\" fontId=\"" ++ toString (mapGetD outputFontMap xf.fontId) ++
    "\" numFmtId=\"" ++ toString xf.numFmtId ++ "\""
  let result := match xf.xfId with
    | some v => result ++ " xfId=\"" ++ toString v ++ "\""
    | none => result
  result ++ ">" ++ xf.alignment.Marshal ++ "</xf>"

/-- A model of the standard library's `xml.Marshal` on one `xlsxCellStyle`
(attributes in struct order, omit-empty pointers skipped); never the empty
string. -/
def xmlMarshalCellStyle (cellStyle : xlsxCellStyle) : String :=
  "<cellStyle" ++
  (match cellStyle.builtInId with
   | some v => " builtInId=\"" ++ toString v ++ "\""
   | none => "") ++
  (match cellStyle.customBuiltIn with
   | some v => " customBuiltIn=\"" ++ (if v then "true" else "false") ++ "\""
   | none => "") ++
  (match cellStyle.hidden with
   | some v => " hidden=\"" ++ (if v then "true" else "false") ++ "\""
   | none => "") ++
  (match cellStyle.iLevel with
   | some v => " iLevel=\"" ++ (if v then "true" else "false") ++ "\""
   | none => "") ++
  " name=\"" ++ escapeTextModel cellStyle.name ++ "\" xfId=\"" ++
  toString cellStyle.xfId ++ "\"></cellStyle>"

/-- Concatenation of a list of strings (the `result += x` accumulation loop
of the Marshal methods). -/
def strConcat : List String → String
  | [] => ""
  | s :: l => s ++ strConcat l

/-- The accumulator of the emit loops in `xlsxFonts.Marshal`,
`xlsxFills.Marshal` and `xlsxBorders.Marshal`: the loop index, the number of
elements emitted so far, the concatenated sub-elements, and the old-index →
emitted-index output map. -/
structure MarshalAcc where
  idx : Int
  emitted : Int
  subparts : String
  outMap : List (Int × Int)
  deriving Repr, DecidableEq

/-- The shared emit loop: for each element, marshal it; when non-empty,
record it in the output map, count it and append it. -/
def marshalScan {α : Type} (m : α → String) (l : List α) : MarshalAcc :=
  l.foldl (fun acc x =>
    let xs := m x
    if xs == "" then { acc with idx := acc.idx + 1 }
    else { idx := acc.idx + 1, emitted := acc.emitted + 1
         , subparts := acc.subparts ++ xs
         , outMap := acc.outMap ++ [(acc.idx, acc.emitted)] })
    { idx := 0, emitted := 0, subparts := "", outMap := [] }

/-- `xlsxNumFmts.Marshal` (xmlStyle.go:646-660): emitted when `Count > 0`,
with `Count` as the count attribute and every `NumFmt` entry emitted. -/
def xlsxNumFmts.Marshal (numFmts : xlsxNumFmts) : String :=
  if numFmts.count > 0 then
    "<numFmts count=\"" ++ toString numFmts.count ++ "\">" ++
    strConcat (numFmts.numFmt.map xlsxNumFmt.Marshal) ++ "</numFmts>"
  else ""

/-- `xlsxFonts.Marshal` (xmlStyle.go:732-754): emitted when at least one font
marshals non-empty; the count attribute is the table's `Count` field. -/
def xlsxFonts.Marshal (fonts : xlsxFonts) : String × List (Int × Int) :=
  let a := marshalScan xlsxFont.Marshal fonts.font
  ( if a.emitted > 0 then
      "<fonts count=\"" ++ toString fonts.count ++ "\">" ++ a.subparts ++ "</fonts>"
    else ""
  , a.outMap )

/-- `xlsxFills.Marshal` (xmlStyle.go:931-952): the count attribute is the
number of fills actually emitted. -/
def xlsxFills.Marshal (fills : xlsxFills) : String × List (Int × Int) :=
  let a := marshalScan xlsxFill.Marshal fills.fill
  ( if a.emitted > 0 then
      "<fills count=\"" ++ toString a.emitted ++ "\">" ++ a.subparts ++ "</fills>"
    else ""
  , a.outMap )

/-- `xlsxBorders.Marshal` (xmlStyle.go:1116-1138): the count attribute is the
number of borders actually emitted. -/
def xlsxBorders.Marshal (borders : xlsxBorders) : String × List (Int × Int) :=
  let a := marshalScan xlsxBorder.Marshal borders.border
  ( if a.emitted > 0 then
      "<borders count=\"" ++ toString a.emitted ++ "\">" ++ a.subparts ++ "</borders>"
    else ""
  , a.outMap )

/-- `xlsxCellStyleXfs.Marshal` (xmlStyle.go:1327-1341): emitted when
`Count > 0`, with `Count` as the count attribute and every `Xf` emitted. -/
def xlsxCellStyleXfs.Marshal (cellStyleXfs : xlsxCellStyleXfs)
    (outputBorderMap outputFillMap outputFontMap : List (Int × Int)) : String :=
  if cellStyleXfs.count > 0 then
    "<cellStyleXfs count=\"" ++ toString cellStyleXfs.count ++ "\">" ++
    strConcat (cellStyleXfs.xf.map
      (fun xf => xf.Marshal outputBorderMap outputFillMap outputFontMap)) ++
    "</cellStyleXfs>"
  else ""

/-- `xlsxCellXfs.Marshal` (xmlStyle.go:1373-1387): emitted when `Count > 0`,
with `Count` as the count attribute and every `Xf` emitted. -/
def xlsxCellXfs.Marshal (cellXfs : xlsxCellXfs)
    (outputBorderMap outputFillMap outputFontMap : List (Int × Int)) : String :=
  if cellXfs.count > 0 then
    "<cellXfs count=\"" ++ toString cellXfs.count ++ "\">" ++
    strConcat (cellXfs.xf.map
      (fun xf => xf.Marshal outputBorderMap outputFillMap outputFontMap)) ++
    "</cellXfs>"
  else ""

/-- `xlsxCellStyles.Marshal` (xmlStyle.go:1265-1280): emitted when
`Count > 0`, with `Count` as the count attribute and every `CellStyle`
emitted through the XML encoder. -/
def xlsxCellStyles.Marshal (cellStyles : xlsxCellStyles) : String :=
  if cellStyles.count > 0 then
    "<cellStyles count=\"" ++ toString cellStyles.count ++ "\">" ++
    strConcat (cellStyles.cellStyle.map xmlMarshalCellStyle) ++
    "</cellStyles>"
  else ""

/-- The Go `xml.Header` constant. -/
def xmlHeaderModel : String :=
  "<?xml version=\"1.0\" encoding=\"UTF-8\"?>\n"

/-- `xlsxStyleSheet.Marshal` (xmlStyle.go:530-585): concatenate the children,
threading the font/fill/border renumbering maps into the `xf` marshallers. -/
def xlsxStyleSheet.Marshal (styles : xlsxStyleSheet) : String :=
  let result := xmlHeaderModel ++
    "<styleSheet xmlns=\"http://schemas.openxmlformats.org/spreadsheetml/2006/main\">"
  let result := result ++ (match styles.numFmts with
    | some nf => nf.Marshal
    | none => "")
  let fontsR := styles.fonts.Marshal
  let result := result ++ fontsR.1
  let fillsR := styles.fills.Marshal
  let result := result ++ fillsR.1
  let bordersR := styles.borders.Marshal
  let result := result ++ bordersR.1
  let result := result ++ (match styles.cellStyleXfs with
    | some csxfs => csxfs.Marshal bordersR.2 fillsR.2 fontsR.2
    | none => "")
  let result := result ++ styles.cellXfs.Marshal bordersR.2 fillsR.2 fontsR.2
  let result := result ++ (match styles.cellStyles with
    | some cs => cs.Marshal
    | none => "")
  result ++ "</styleSheet>"

/- ===================  Redis cell store (redis.go)  =================== -/

/-- The scalar fields of a `Row` (row.go) persisted by the row record. -/
structure Row where
  hidden : Bool
  height : Rat
  outlineLevel : Nat
  isCustom : Bool
  num : Int
  deriving Repr, DecidableEq

/-- A `Sheet` identity as consumed by the cell store (name only). -/
structure Sheet where
  name : String
  deriving Repr, DecidableEq

/-- `RedisRow` (redis.go:15-21): the backend-specific row wrapper with its
maximum column index and the current (hot) cell.  The sheet pointer is
carried as the sheet name. -/
structure RedisRow where
  row : Row
  sheetName : String
  maxCol : Int
  currentCell : Option Cell
  deriving Repr, DecidableEq

/-- The Redis backend state: hashes (`HGET`/`HSET`/`HDEL`) and sorted sets
(`ZADD`/`ZRANGE`), as association lists.  Scores only affect iteration order
and the store only ever takes full ranges, so members are kept in insertion
order. -/
structure RedisDB where
  hashes : List (String × List (String × List Nat))
  zsets : List (String × List String)
  deriving Repr, DecidableEq

/-- Association-list lookup. -/
def alGet {β : Type} (l : List (String × β)) (k : String) : Option β :=
  (l.find? (fun p => p.1 == k)).map (fun p => p.2)

/-- Association-list update (map semantics). -/
def alSet {β : Type} (l : List (String × β)) (k : String) (v : β) :
    List (String × β) :=
  (k, v) :: l.filter (fun p => p.1 != k)

/-- Association-list removal. -/
def alRemove {β : Type} (l : List (String × β)) (k : String) :
    List (String × β) :=
  l.filter (fun p => p.1 != k)

/-- Redis `HGET`. -/
def hget (db : RedisDB) (h f : String) : Option (List Nat) :=
  (alGet db.hashes h).bind (fun m => alGet m f)

/-- Redis `HSET`. -/
def hset (db : RedisDB) (h f : String) (v : List Nat) : RedisDB :=
  { db with hashes := alSet db.hashes h (alSet ((alGet db.hashes h).getD []) f v) }

/-- Redis `HDEL`. -/
def hdel (db : RedisDB) (h f : String) : RedisDB :=
  match alGet db.hashes h with
  | none => db
  | some m => { db with hashes := alSet db.hashes h (alRemove m f) }

/-- Redis `ZADDString`: record the member in the per-sheet ordered set. -/
def zadd (db : RedisDB) (z member : String) : RedisDB :=
  let cur := (alGet db.zsets z).getD []
  if member ∈ cur then db
  else { db with zsets := alSet db.zsets z (cur ++ [member]) }

/-- Redis `ZRANGEString 0 -1`: every member of the set. -/
def zrangeAll (db : RedisDB) (z : String) : List String :=
  (alGet db.zsets z).getD []

/-- Modelled from the spec: the backend key-naming helpers
(`makeSheetRowsStore`, `makeSheetCellsStore`, `Row.makeCellKeyPrefix`,
`Row.makeRowNum`, `Row.key`) are repository code not in the provided sources;
spec §4.7 fixes only their roles.  The visible call sites pin them down: a
row key splits on ":" into exactly two segments (redis.go:360), whose first
segment `RemoveRow` uses both as the sheet name (for `makeSheetCellsStore`,
redis.go:452) and as the hash holding the row map entry (redis.go:459), while
`ReadRow`/`WriteRow` address that map as `makeSheetRowsStore(sheet.Name)`;
hence the per-sheet row map is named by the sheet name itself and a row key
is "sheetName:rowNumber". -/
def makeSheetRowsStore (sheetName : String) : String :=
  sheetName

/-- Modelled from the spec: the per-sheet ordered set of populated cell
columns (spec §4.7). -/
def makeSheetCellsStore (sheetName : String) : String :=
  sheetName ++ ":cells"

/-- Modelled from the spec: the per-(sheet, column) cell map name
(spec §4.7). -/
def makeCellKeyPref (sheetName : String) (col : Int) : String :=
  sheetName ++ ":cell:" ++ toString col

/-- Modelled from the spec: `Row.makeRowNum`, the row-number hash field;
`MoveRow` forms the destination field with `strconv.Itoa(index)`
(redis.go:407) and compares it against stored fields, so the field is the
plain decimal row number. -/
def makeRowNum (num : Int) : String :=
  toString num

/-- Modelled from the spec: `Row.key`, "sheetName:rowNumber" (see
`makeSheetRowsStore`). -/
def rowKey (sheetName : String) (num : Int) : String :=
  sheetName ++ ":" ++ toString num

/-- Modelled from the spec: `writeRow` is repository code not in the provided
sources; its field order is fixed by `readRedisRow` (redis.go:482-519):
hidden, height, outline level, custom-height flag, row number, max column,
end of record. -/
def writeRowRecord (r : Row) (maxCol : Int) : List Nat :=
  writeBoolS r.hidden ++ writeFloatS r.height ++
  writeIntS (Int.ofNat r.outlineLevel) ++ writeBoolS r.isCustom ++
  writeIntS r.num ++ writeIntS maxCol ++ writeEndS

/-- `readRedisRow` (redis.go:482-519): decode the row record; the outline
level is truncated to `uint8`. -/
def readRedisRow (s : List Nat) : Option (Row × Int) :=
  match readBoolS s with
  | none => none
  | some (hidden, s) =>
  match readFloatS s with
  | none => none
  | some (height, s) =>
  match readIntS s with
  | none => none
  | some (outlineLevel, s) =>
  match readBoolS s with
  | none => none
  | some (isCustom, s) =>
  match readIntS s with
  | none => none
  | some (num, s) =>
  match readIntS s with
  | none => none
  | some (maxCol, s) =>
  match readEndS s with
  | none => none
  | some _ =>
    some ({ hidden := hidden, height := height
          , outlineLevel := (outlineLevel.emod 256).toNat
          , isCustom := isCustom, num := num }, maxCol)

/-- The cell store's error kinds (spec §7): `RowNotFoundError` carries the
key and message; `MoveRow`'s occupied-destination error is the Conflict
kind. -/
inductive StoreErr where
  | rowNotFound (key : String) (msg : String)
  | malformed
  | conflict (index : Int)
  deriving Repr, DecidableEq

/-- `RedisCellStore` (redis.go:319-324): the remembered sheet name and the
backend state. -/
structure RedisCellStore where
  sheetName : String
  db : RedisDB
  deriving Repr, DecidableEq

/-- The store part of `RedisRow.writeCell` (redis.go:208-214): record the
cell's column in the per-sheet cell index, then store the encoded record
under the per-(sheet, column) map at the row-number field. -/
def flushCell (db : RedisDB) (sheetName : String) (rowNumField : String)
    (c : Cell) : RedisDB :=
  let key := makeCellKeyPref sheetName c.num
  let db := zadd db (makeSheetCellsStore sheetName) key
  hset db key rowNumField (writeCellRecord (some c))

/-- `strings.Split(key, ":")` as used by `ReadRow` and `RemoveRow`. -/
def splitColonS (s : String) : List String :=
  (splitCharAux ':' s.data).map (fun l => ⟨l⟩)

/-- `RedisCellStore.ReadRow` (redis.go:356-383): reject keys that do not
split into exactly two segments, fetch the row map entry, decode it. -/
def RedisCellStore.ReadRow (cs : RedisCellStore) (key : String) (s : Sheet) :
    Except StoreErr (Row × Int) × RedisCellStore :=
  let cs := if cs.sheetName == "" then { cs with sheetName := s.name } else cs
  match splitColonS key with
  | [_, k1] =>
    (match hget cs.db (makeSheetRowsStore s.name) k1 with
     | none => (.error (.rowNotFound key "no such row"), cs)
     | some b =>
       match readRedisRow b with
       | none => (.error .malformed, cs)
       | some (r, maxCol) => (.ok (r, maxCol), cs))
  | _ => (.error (.rowNotFound key "no such row"), cs)

/-- `RedisCellStore.RemoveRow` (redis.go:447-465): reject malformed keys,
delete the row-number field from every cell map listed in the per-sheet cell
index, then delete the row map entry. -/
def RedisCellStore.RemoveRow (cs : RedisCellStore) (key : String) :
    Except StoreErr Unit × RedisCellStore :=
  match splitColonS key with
  | [k0, k1] =>
    let cells := zrangeAll cs.db (makeSheetCellsStore k0)
    let db := cells.foldl (fun db cell => hdel db cell k1) cs.db
    let db := hdel db k0 k1
    (.ok (), { cs with db := db })
  | _ => (.error (.rowNotFound key "no such row"), cs)

/-- `RedisCellStore.MoveRow` (redis.go:387-443): flush the hot cell, fail
with Conflict when the destination row-map field is occupied; otherwise
delete the old row-map entry, re-key each owned cell (modelled from spec
§4.7: delete under the old row number and insert under the new one, column by
column; the source drives this through `ForEachCell`), update the row number
and store the row record under the new field. -/
def RedisCellStore.MoveRow (cs : RedisCellStore) (rr : RedisRow) (index : Int) :
    Except StoreErr Unit × RedisCellStore × RedisRow :=
  let cs := if cs.sheetName == "" then { cs with sheetName := rr.sheetName } else cs
  let db := match rr.currentCell with
    | some cell => flushCell cs.db rr.sheetName (makeRowNum rr.row.num) cell
    | none => cs.db
  let oldKey := makeRowNum rr.row.num
  let newKey := toString index
  match hget db (makeSheetRowsStore rr.sheetName) newKey with
  | some _ => (.error (.conflict index), { cs with db := db }, rr)
  | none =>
    let db := hdel db (makeSheetRowsStore rr.sheetName) oldKey
    let cols := (List.range (rr.maxCol + 1).toNat).map Int.ofNat
    let db := cols.foldl (fun db ci =>
      let k := makeCellKeyPref rr.sheetName ci
      match hget db k oldKey with
      | some b =>
        match readCellRecord b with
        | some (some c, _) =>
          hdel (hset db k newKey (writeCellRecord (some c))) k oldKey
        | _ => db
      | none => db) db
    let rr2 := { rr with row := { rr.row with num := index } }
    let db := hset db (makeSheetRowsStore rr.sheetName) newKey
      (writeRowRecord rr2.row rr2.maxCol)
    (.ok (), { cs with db := db }, rr2)

/-- `RedisCellStore.WriteRow` (redis.go:543-564): flush the hot cell, then
store the row record under the row-number field of the per-sheet row map. -/
def RedisCellStore.WriteRow (cs : RedisCellStore) (rr : RedisRow) :
    RedisCellStore :=
  let cs := if cs.sheetName == "" then { cs with sheetName := rr.sheetName } else cs
  let db := match rr.currentCell with
    | some cell => flushCell cs.db rr.sheetName (makeRowNum rr.row.num) cell
    | none => cs.db
  { cs with db := (hset db (makeSheetRowsStore rr.sheetName) (makeRowNum rr.row.num)
      (writeRowRecord rr.row rr.maxCol)) }

/- ===================  Concrete values for witnesses  =================== -/

/-- An empty style sheet (all tables empty, no theme, empty cache). -/
def sheet0 : xlsxStyleSheet :=
  { fonts := { count := 0, font := [] }
  , fills := { count := 0, fill := [] }
  , borders := { count := 0, border := [] }
  , colors := none, cellStyles := none, cellStyleXfs := none
  , cellXfs := { count := 0, xf := [] }
  , numFmts := none, theme := none, styleCache := [], numFmtRefTable := none }

/-- An Arial-11 font. -/
def arialFont : xlsxFont :=
  { sz := { val := "11" }, name := { val := "Arial" }, family := { val := "" }
  , charset := { val := "" }, color := default
  , b := none, i := none, u := none, scheme := none, strike := none }

/-- The Arial-11 font with a strike marker: structurally different from
`arialFont`, yet `Equals`-equivalent to it (strike is not compared). -/
def strikeFont : xlsxFont :=
  { arialFont with strike := some { val := "" } }

/-- A sheet whose only cell format applies its border. -/
def sheetC7 : xlsxStyleSheet :=
  { sheet0 with cellXfs :=
    { count := 1, xf := [{ (default : xlsxXf) with applyBorder := true }] } }

/-- A named (cell-style) format with a vertical alignment and an apply-border
flag. -/
def namedTopXf : xlsxXf :=
  { (default : xlsxXf) with
    applyBorder := true
    alignment := { (default : xlsxAlignment) with vertical := "top" } }

/-- A cell format referencing named format 0, with no vertical alignment of
its own. -/
def cellRefXf : xlsxXf :=
  { (default : xlsxXf) with xfId := some 0 }

/-- A sheet exercising the named-style cascade. -/
def sheetC8 : xlsxStyleSheet :=
  { sheet0 with
    cellXfs := { count := 1, xf := [cellRefXf] }
    cellStyleXfs := some { count := 1, xf := [namedTopXf] } }

/-- A sheet with a font table of size 3. -/
def sheetC9 : xlsxStyleSheet :=
  { sheet0 with fonts :=
    { count := 3
    , font := [ arialFont, { arialFont with sz := { val := "12" } }
              , { arialFont with sz := { val := "13" } } ] } }

/-- A cell format referencing font id 5. -/
def xfFont5 : xlsxXf :=
  { (default : xlsxXf) with fontId := 5 }

/-- The empty backend state. -/
def dbEmpty : RedisDB := { hashes := [], zsets := [] }

/-- A fresh cell store. -/
def csEmpty : RedisCellStore := { sheetName := "", db := dbEmpty }

/-- A sample row at index 3 of sheet "Test". -/
def rowA : Row :=
  { hidden := true, height := 40, outlineLevel := 2, isCustom := true, num := 3 }

/-- The backend wrapper of `rowA`. -/
def rrA : RedisRow :=
  { row := rowA, sheetName := "Test", maxCol := -1, currentCell := none }

/-- A second row at index 5 of the same sheet. -/
def rowB : Row := { rowA with num := 5 }

/-- The backend wrapper of `rowB`. -/
def rrB : RedisRow := { rrA with row := rowB }

/-- The store holding `rowA`. -/
def csA : RedisCellStore := csEmpty.WriteRow rrA

/-- The store holding `rowA` and `rowB`. -/
def csAB : RedisCellStore := csA.WriteRow rrB

/-- A numFmts table for the count witness. -/
def numFmtsW : xlsxNumFmts :=
  { count := 1, numFmt := [{ numFmtId := 164, formatCode := "abc" }] }

/-- A fonts table for the count witness. -/
def fontsW : xlsxFonts :=
  { count := 2, font := [arialFont, strikeFont] }

/-- A fills table with one empty-pattern (unemitted) fill and one emitted
fill. -/
def fillsW : xlsxFills :=
  { count := 2
  , fill := [ { patternFill := { patternType := "", fgColor := default
                               , bgColor := default } }
            , { patternFill := { patternType := "none", fgColor := default
                               , bgColor := default } } ] }

/-- A borders table for the count witness. -/
def bordersW : xlsxBorders := { count := 1, border := [default] }

/-- A cellStyleXfs table for the count witness. -/
def cellStyleXfsW : xlsxCellStyleXfs := { count := 1, xf := [default] }

/-- A cellXfs table for the count witness. -/
def cellXfsW : xlsxCellXfs := { count := 1, xf := [default] }

/-- A cellStyles table for the count witness. -/
def cellStylesW : xlsxCellStyles :=
  { count := 1
  , cellStyle := [{ builtInId := none, customBuiltIn := none, hidden := none
                  , iLevel := none, name := "Normal", xfId := 0 }] }

/- ===================  Codec round-trip lemmas  =================== -/

theorem readNatS_digits (ds : List Nat) (r : List Nat)
    (hd : ∀ d ∈ ds, d < 10) :
    readNatS (ds ++ 59 :: r) = some (Nat.ofDigits 10 ds, r) := by
  induction ds with
  | nil => simp [readNatS, Nat.ofDigits]
  | cons d ds ih =>
    have hdlt : d < 10 := hd d (by simp)
    have hne : (d == 59) = false := by
      simp only [beq_eq_false_iff_ne]
      omega
    simp only [List.cons_append, readNatS, hne, Bool.false_eq_true, if_false,
      List.append_eq]
    rw [ih (fun x hx => hd x (by simp [hx]))]
    simp [Nat.ofDigits_cons]

theorem readNatS_append (n : Nat) (r : List Nat) :
    readNatS (writeNatS n ++ r) = some (n, r) := by
  unfold writeNatS
  rw [List.append_assoc, List.singleton_append,
    readNatS_digits _ _ (fun d hd => Nat.digits_lt_base (by norm_num) hd),
    Nat.ofDigits_digits]

theorem readIntS_append (i : Int) (r : List Nat) :
    readIntS (writeIntS i ++ r) = some (i, r) := by
  unfold writeIntS
  by_cases hneg : i < 0
  · simp only [hneg, if_true, List.cons_append, List.nil_append, readIntS,
      beq_self_eq_true, if_true]
    rw [readNatS_append]
    simp only [Option.some.injEq, Prod.mk.injEq, and_true]
    omega
  · simp only [hneg, if_false, List.nil_append]
    have hwn : ∃ d rest, writeNatS i.natAbs ++ r = d :: rest ∧ (d == 45) = false := by
      unfold writeNatS
      cases hds : Nat.digits 10 i.natAbs with
      | nil => exact ⟨59, r, by simp, by decide⟩
      | cons d ds =>
        refine ⟨d, ds ++ 59 :: r, by simp, ?_⟩
        have : d < 10 := Nat.digits_lt_base (by norm_num) (by rw [hds]; simp)
        simp only [beq_eq_false_iff_ne]
        omega
    obtain ⟨d, rest, heq, hne⟩ := hwn
    rw [heq]
    simp only [readIntS, hne, Bool.false_eq_true, if_false]
    rw [← heq, readNatS_append]
    simp only [Option.some.injEq, Prod.mk.injEq, and_true]
    omega

theorem readBoolS_append (b : Bool) (r : List Nat) :
    readBoolS (writeBoolS b ++ r) = some (b, r) := by
  cases b <;> rfl

theorem readEndS_append (r : List Nat) :
    readEndS (writeEndS ++ r) = some r := rfl

theorem readCharsS_append (cs : List Char) (r : List Nat) :
    readCharsS cs.length (cs.map Char.toNat ++ r) = some (cs, r) := by
  induction cs with
  | nil => rfl
  | cons c cs ih =>
    simp only [List.length_cons, List.map_cons, List.cons_append, readCharsS,
      List.append_eq, ih, Char.ofNat_toNat]

theorem readStringS_append (s : String) (r : List Nat) :
    readStringS (writeStringS s ++ r) = some (s, r) := by
  unfold writeStringS readStringS
  rw [List.append_assoc]
  simp only [readNatS_append, readCharsS_append]

theorem readFloatS_append (q : Rat) (r : List Nat) :
    readFloatS (writeFloatS q ++ r) = some (q, r) := by
  unfold writeFloatS readFloatS
  rw [List.append_assoc]
  simp only [readIntS_append, readNatS_append, Rat.num_div_den]

theorem readRunsS_append (l : List String) (r : List Nat) :
    readRunsS l.length ((l.map writeStringS).flatten ++ r) = some (l, r) := by
  induction l with
  | nil => rfl
  | cons s l ih =>
    simp only [List.length_cons, List.map_cons, List.flatten_cons, readRunsS,
      List.append_assoc, readStringS_append, ih]

theorem readRichTextS_append (l : List String) (r : List Nat) :
    readRichTextS (writeRichTextS l ++ r) = some (l, r) := by
  unfold writeRichTextS readRichTextS
  rw [List.append_assoc]
  simp only [readNatS_append, readRunsS_append]

theorem readOptStringS_append (o : Option String) (r : List Nat) :
    readOptStringS (writeOptStringS o ++ r) = some (o, r) := by
  cases o <;>
    simp [writeOptStringS, readOptStringS, List.append_assoc,
      readBoolS_append, readStringS_append]

theorem readOptIntS_append (o : Option Int) (r : List Nat) :
    readOptIntS (writeOptIntS o ++ r) = some (o, r) := by
  cases o <;>
    simp [writeOptIntS, readOptIntS, List.append_assoc,
      readBoolS_append, readIntS_append]

theorem readStyleS_append (st : Style) (r : List Nat) :
    readStyleS (writeStyleS st ++ r) = some (st, r) := by
  simp only [writeStyleS, readStyleS, List.append_assoc, readStringS_append,
    readFloatS_append, readIntS_append, readBoolS_append, readOptIntS_append]

theorem readDataValidationS_append (dv : DataValidation) (r : List Nat) :
    readDataValidationS (writeDataValidationS dv ++ r) = some (dv, r) := by
  simp only [writeDataValidationS, readDataValidationS, List.append_assoc,
    readStringS_append, readBoolS_append, readOptStringS_append]

theorem readCellRecord_append (oc : Option Cell) (r : List Nat) :
    readCellRecord (writeCellRecord oc ++ r) = some (oc, r) := by
  cases oc with
  | none =>
    simp only [writeCellRecord, readCellRecord, List.append_assoc,
      readBoolS_append, if_true, readEndS_append]
  | some c =>
    obtain ⟨value, formula, style, numFmt, date1904, hidden, hMerge, vMerge,
      cellType, dataValidation, hyperlink, num, richText⟩ := c
    cases style <;> cases dataValidation <;>
      simp only [writeCellRecord, readCellRecord, List.append_assoc,
        readBoolS_append, readStringS_append, readIntS_append,
        readRichTextS_append, readEndS_append, readStyleS_append,
        readDataValidationS_append, Option.isSome_some, Option.isSome_none,
        Bool.false_eq_true, if_true, if_false, List.nil_append, Option.map_some',
        Option.map_none']

/-- C2: for every Cell value, including the nil cell, and including cells
carrying a style and a data-validation block, decoding (the `readCell` field
sequence) the byte record produced by encoding (the `writeCell` field
sequence) reproduces every field of the original cell exactly — value,
formula, number-format string, date-system flag, hidden flag, merge counts,
cell-type tag, hyperlink fields, column number, rich-text runs, style
sub-record and data-validation sub-record — with the end-of-record marker
verified and the whole record consumed. -/
theorem C2_cell_roundtrip (oc : Option Cell) :
    readCellRecord (writeCellRecord oc) = some (oc, []) := by
  have h := readCellRecord_append oc []
  simpa using h

theorem readRedisRow_roundtrip (row : Row) (maxCol : Int)
    (hol : row.outlineLevel < 256) :
    readRedisRow (writeRowRecord row maxCol) = some (row, maxCol) := by
  obtain ⟨hidden, height, outlineLevel, isCustom, num⟩ := row
  simp only [writeRowRecord, readRedisRow, List.append_assoc, readBoolS_append,
    readFloatS_append, readIntS_append]
  have h59 : readEndS writeEndS = some [] := rfl
  simp only [h59]
  simp only [Option.some.injEq, Prod.mk.injEq, Row.mk.injEq, and_true, true_and]
  simp only [Row.outlineLevel] at hol
  have hrw : (Int.ofNat outlineLevel).emod 256 = (outlineLevel : Int) % 256 := rfl
  rw [hrw]
  omega

/- ===================  Interning lemmas (C1, C10)  =================== -/

theorem scanIdx_eq_none_iff {α : Type} (eq : α → α → Bool) (v : α)
    (l : List α) :
    scanIdx eq v l = none ↔ ∀ x ∈ l, eq x v = false := by
  induction l with
  | nil => simp [scanIdx]
  | cons x xs ih =>
    by_cases h : eq x v = true
    · simp [scanIdx, h]
    · have hf : eq x v = false := by simpa using h
      simp [scanIdx, hf, ih, Option.map_eq_none']

theorem scanIdx_first {α : Type} (eq : α → α → Bool) (v : α) :
    ∀ (l : List α) (i : Nat) (x : α), l.get? i = some x → eq x v = true →
    (∀ j y, j < i → l.get? j = some y → eq y v = false) →
    scanIdx eq v l = some i := by
  intro l
  induction l with
  | nil => intro i x hx; simp at hx
  | cons a as ih =>
    intro i x hx hxv hmin
    cases i with
    | zero =>
      simp only [List.get?_cons_zero, Option.some.injEq] at hx
      subst hx
      simp [scanIdx, hxv]
    | succ n =>
      have ha : eq a v = false :=
        hmin 0 a (Nat.succ_pos n) (by simp)
      simp only [List.get?_cons_succ] at hx
      have := ih n x hx hxv (fun j y hj hy =>
        hmin (j + 1) y (by omega) (by simpa using hy))
      simp [scanIdx, ha, this]

theorem scanIdx_append_self {α : Type} (eq : α → α → Bool) (v : α)
    (l : List α) (hall : ∀ x ∈ l, eq x v = false) (hrefl : eq v v = true) :
    scanIdx eq v (l ++ [v]) = some l.length := by
  induction l with
  | nil => simp [scanIdx, hrefl]
  | cons a as ih =>
    have ha : eq a v = false := hall a (by simp)
    simp only [List.cons_append, scanIdx, ha, Bool.false_eq_true, if_false,
      List.append_eq]
    rw [ih (fun x hx => hall x (by simp [hx]))]
    simp

theorem internAdd_no_match {α : Type} (eq : α → α → Bool) (c : Int)
    (l : List α) (v : α) (hall : ∀ x ∈ l, eq x v = false) :
    internAdd eq c l v = (c, c + 1, l ++ [v]) := by
  unfold internAdd
  rw [(scanIdx_eq_none_iff eq v l).mpr hall]

theorem internAdd_match {α : Type} (eq : α → α → Bool) (c : Int)
    (l : List α) (v : α) (i : Nat) (x : α) (hx : l.get? i = some x)
    (hxv : eq x v = true)
    (hmin : ∀ j y, j < i → l.get? j = some y → eq y v = false) :
    internAdd eq c l v = ((i : Int), c, l) := by
  unfold internAdd
  rw [scanIdx_first eq v l i x hx hxv hmin]

theorem internAdd_repeat {α : Type} (eq : α → α → Bool) (c : Int)
    (l : List α) (v : α) (hrefl : eq v v = true)
    (hc : c = (l.length : Int)) :
    (internAdd eq (internAdd eq c l v).2.1 (internAdd eq c l v).2.2 v).1 =
      (internAdd eq c l v).1 := by
  cases h : scanIdx eq v l with
  | some i => simp [internAdd, h]
  | none =>
    have hall := (scanIdx_eq_none_iff eq v l).mp h
    simp only [internAdd, h]
    rw [scanIdx_append_self eq v l hall hrefl]
    simp [hc]

theorem xlsxVal_Equals_refl (v : xlsxVal) : v.Equals v = true := by
  simp [xlsxVal.Equals]

theorem xlsxColor_Equals_refl (c : xlsxColor) : c.Equals c = true := by
  simp [xlsxColor.Equals]

theorem xlsxFont_Equals_refl (f : xlsxFont) : f.Equals f = true := by
  unfold xlsxFont.Equals
  cases f.b <;> cases f.i <;> cases f.u <;>
    simp [xlsxVal_Equals_refl, xlsxColor_Equals_refl]

theorem xlsxFill_Equals_refl (f : xlsxFill) : f.Equals f = true := by
  simp [xlsxFill.Equals, xlsxPatternFill.Equals, xlsxColor_Equals_refl]

theorem xlsxBorder_Equals_refl (b : xlsxBorder) : b.Equals b = true := by
  simp [xlsxBorder.Equals, xlsxLine.Equals, xlsxColor_Equals_refl]

theorem optPtrEqInt_refl (o : Option Int) : optPtrEqInt o o = true := by
  cases o <;> simp [optPtrEqInt]

theorem xlsxXf_Equals_refl (xf : xlsxXf) : xf.Equals xf = true := by
  simp [xlsxXf.Equals, xlsxAlignment.Equals, optPtrEqInt_refl]

/-- C1 (amended): the interning operations deduplicate with respect to the
source's `Equals` relations — which compare only a subset of the fields
(colors by RGB only; fonts ignoring scheme, strike and the values inside the
bold/italic/underline markers; cell formats ignoring `ApplyNumberFormat`) —
not full structural equality, and `addFont` is restricted to candidates with
a non-empty name.  For each of `addFont`, `addFill`, `addBorder`, `addCellXf`
and `addCellStyleXf`, on a table whose `Count` equals its length: adding a
value `Equals` to no existing entry appends it and returns the new highest
index; adding a value whose first `Equals` match is at index `i` returns `i`
and leaves the sheet unchanged; and repeating the same `add*` call returns
the same index. -/
theorem C1_interning_equals :
    (∀ (styles : xlsxStyleSheet) (v : xlsxFont), v.name.val ≠ "" →
      styles.fonts.count = (styles.fonts.font.length : Int) →
      ((∀ x ∈ styles.fonts.font, x.Equals v = false) →
        styles.addFont v = ((styles.fonts.font.length : Int),
          { styles with fonts :=
            { count := (styles.fonts.font.length : Int) + 1
            , font := styles.fonts.font ++ [v] } })) ∧
      (∀ (i : Nat) (x : xlsxFont), styles.fonts.font.get? i = some x →
        x.Equals v = true →
        (∀ j y, j < i → styles.fonts.font.get? j = some y → y.Equals v = false) →
        styles.addFont v = ((i : Int), styles)) ∧
      ((styles.addFont v).2.addFont v).1 = (styles.addFont v).1) ∧
    (∀ (styles : xlsxStyleSheet) (v : xlsxFill),
      styles.fills.count = (styles.fills.fill.length : Int) →
      ((∀ x ∈ styles.fills.fill, x.Equals v = false) →
        styles.addFill v = ((styles.fills.fill.length : Int),
          { styles with fills :=
            { count := (styles.fills.fill.length : Int) + 1
            , fill := styles.fills.fill ++ [v] } })) ∧
      (∀ (i : Nat) (x : xlsxFill), styles.fills.fill.get? i = some x →
        x.Equals v = true →
        (∀ j y, j < i → styles.fills.fill.get? j = some y → y.Equals v = false) →
        styles.addFill v = ((i : Int), styles)) ∧
      ((styles.addFill v).2.addFill v).1 = (styles.addFill v).1) ∧
    (∀ (styles : xlsxStyleSheet) (v : xlsxBorder),
      styles.borders.count = (styles.borders.border.length : Int) →
      ((∀ x ∈ styles.borders.border, x.Equals v = false) →
        styles.addBorder v = ((styles.borders.border.length : Int),
          { styles with borders :=
            { count := (styles.borders.border.length : Int) + 1
            , border := styles.borders.border ++ [v] } })) ∧
      (∀ (i : Nat) (x : xlsxBorder), styles.borders.border.get? i = some x →
        x.Equals v = true →
        (∀ j y, j < i → styles.borders.border.get? j = some y →
          y.Equals v = false) →
        styles.addBorder v = ((i : Int), styles)) ∧
      ((styles.addBorder v).2.addBorder v).1 = (styles.addBorder v).1) ∧
    (∀ (styles : xlsxStyleSheet) (v : xlsxXf),
      styles.cellXfs.count = (styles.cellXfs.xf.length : Int) →
      ((∀ x ∈ styles.cellXfs.xf, x.Equals v = false) →
        styles.addCellXf v = ((styles.cellXfs.xf.length : Int),
          { styles with cellXfs :=
            { count := (styles.cellXfs.xf.length : Int) + 1
            , xf := styles.cellXfs.xf ++ [v] } })) ∧
      (∀ (i : Nat) (x : xlsxXf), styles.cellXfs.xf.get? i = some x →
        x.Equals v = true →
        (∀ j y, j < i → styles.cellXfs.xf.get? j = some y →
          y.Equals v = false) →
        styles.addCellXf v = ((i : Int), styles)) ∧
      ((styles.addCellXf v).2.addCellXf v).1 = (styles.addCellXf v).1) ∧
    (∀ (styles : xlsxStyleSheet) (v : xlsxXf),
      (styles.cellStyleXfs.getD { count := 0, xf := [] }).count =
        ((styles.cellStyleXfs.getD { count := 0, xf := [] }).xf.length : Int) →
      ((∀ x ∈ (styles.cellStyleXfs.getD { count := 0, xf := [] }).xf,
          x.Equals v = false) →
        styles.addCellStyleXf v =
          (((styles.cellStyleXfs.getD { count := 0, xf := [] }).xf.length : Int),
          { styles with cellStyleXfs := some (
            { count :=
                ((styles.cellStyleXfs.getD { count := 0, xf := [] }).xf.length : Int) + 1
              xf := (styles.cellStyleXfs.getD { count := 0, xf := [] }).xf ++ [v] }) })) ∧
      (∀ (i : Nat) (x : xlsxXf),
        (styles.cellStyleXfs.getD { count := 0, xf := [] }).xf.get? i = some x →
        x.Equals v = true →
        (∀ j y, j < i →
          (styles.cellStyleXfs.getD { count := 0, xf := [] }).xf.get? j = some y →
          y.Equals v = false) →
        styles.addCellStyleXf v = ((i : Int),
          { styles with cellStyleXfs := (some
            (styles.cellStyleXfs.getD { count := 0, xf := [] })) })) ∧
      ((styles.addCellStyleXf v).2.addCellStyleXf v).1 =
        (styles.addCellStyleXf v).1) := by
  refine ⟨?_, ?_, ?_, ?_, ?_⟩
  · intro styles v hname hc
    have hbeq : (v.name.val == "") = false := beq_eq_false_iff_ne.mpr hname
    refine ⟨?_, ?_, ?_⟩
    · intro hall
      simp only [xlsxStyleSheet.addFont, hbeq, Bool.false_eq_true, if_false,
        internAdd_no_match _ _ _ _ hall, hc]
    · intro i x hx hxv hmin
      simp only [xlsxStyleSheet.addFont, hbeq, Bool.false_eq_true, if_false,
        internAdd_match _ _ _ _ i x hx hxv hmin]
    · have hrep := internAdd_repeat xlsxFont.Equals styles.fonts.count
        styles.fonts.font v (xlsxFont_Equals_refl v) hc
      simp only [xlsxStyleSheet.addFont, hbeq, Bool.false_eq_true, if_false]
      exact hrep
  · intro styles v hc
    refine ⟨?_, ?_, ?_⟩
    · intro hall
      simp only [xlsxStyleSheet.addFill,
        internAdd_no_match _ _ _ _ hall, hc]
    · intro i x hx hxv hmin
      simp only [xlsxStyleSheet.addFill,
        internAdd_match _ _ _ _ i x hx hxv hmin]
    · have hrep := internAdd_repeat xlsxFill.Equals styles.fills.count
        styles.fills.fill v (xlsxFill_Equals_refl v) hc
      simp only [xlsxStyleSheet.addFill]
      exact hrep
  · intro styles v hc
    refine ⟨?_, ?_, ?_⟩
    · intro hall
      simp only [xlsxStyleSheet.addBorder,
        internAdd_no_match _ _ _ _ hall, hc]
    · intro i x hx hxv hmin
      simp only [xlsxStyleSheet.addBorder,
        internAdd_match _ _ _ _ i x hx hxv hmin]
    · have hrep := internAdd_repeat xlsxBorder.Equals styles.borders.count
        styles.borders.border v (xlsxBorder_Equals_refl v) hc
      simp only [xlsxStyleSheet.addBorder]
      exact hrep
  · intro styles v hc
    refine ⟨?_, ?_, ?_⟩
    · intro hall
      simp only [xlsxStyleSheet.addCellXf,
        internAdd_no_match _ _ _ _ hall, hc]
    · intro i x hx hxv hmin
      simp only [xlsxStyleSheet.addCellXf,
        internAdd_match _ _ _ _ i x hx hxv hmin]
    · have hrep := internAdd_repeat xlsxXf.Equals styles.cellXfs.count
        styles.cellXfs.xf v (xlsxXf_Equals_refl v) hc
      simp only [xlsxStyleSheet.addCellXf]
      exact hrep
  · intro styles v hc
    refine ⟨?_, ?_, ?_⟩
    · intro hall
      simp only [xlsxStyleSheet.addCellStyleXf,
        internAdd_no_match _ _ _ _ hall, hc]
    · intro i x hx hxv hmin
      simp only [xlsxStyleSheet.addCellStyleXf,
        internAdd_match _ _ _ _ i x hx hxv hmin]
    · have hrep := internAdd_repeat xlsxXf.Equals
        (styles.cellStyleXfs.getD { count := 0, xf := [] }).count
        (styles.cellStyleXfs.getD { count := 0, xf := [] }).xf v
        (xlsxXf_Equals_refl v) hc
      simp only [xlsxStyleSheet.addCellStyleXf, Option.getD_some]
      exact hrep

/-- C1 (counterexample): the claim's equality is full field-by-field
structural equality, but the code deduplicates by the weaker `Equals`
relation.  `strikeFont` differs structurally from every entry of the table
(it is not a member), yet `addFont` returns the existing index 0 and appends
nothing, contradicting "adding a value equal to no existing entry appends it
and returns the new highest index". -/
theorem C1_counterexample_structural :
    strikeFont ∉ ((sheet0.addFont arialFont).2).fonts.font ∧
    ((sheet0.addFont arialFont).2.addFont strikeFont).1 = 0 ∧
    ((sheet0.addFont arialFont).2.addFont strikeFont).2 =
      (sheet0.addFont arialFont).2 := by
  refine ⟨by decide, rfl, rfl⟩

theorem C1_witness :
    sheet0.addFont arialFont =
      (0, { sheet0 with fonts := { count := 1, font := [arialFont] } }) := by
  simpa using (C1_interning_equals.1 sheet0 arialFont (by decide) rfl).1
    (by decide)

/-- C10: a candidate font whose name is the empty string makes `addFont`
return index 0 immediately, without scanning the table and without appending,
leaving the style sheet unchanged — on any table, including tables with no
structurally equal font at index 0 and the empty table. -/
theorem C10_addFont_emptyName (styles : xlsxStyleSheet) (v : xlsxFont)
    (h : v.name.val = "") : styles.addFont v = (0, styles) := by
  simp [xlsxStyleSheet.addFont, h]

theorem C10_witness :
    sheet0.addFont { arialFont with name := { val := "" } } = (0, sheet0) :=
  C10_addFont_emptyName sheet0 { arialFont with name := { val := "" } } rfl

/- ===================  Style cache lemmas (C7)  =================== -/

theorem cacheLookup_insert (cache : List (Int × Style)) (i : Int) (st : Style) :
    cacheLookup (cacheInsert cache i st) i = some st := by
  simp [cacheLookup, cacheInsert]

theorem getStyle_cached (styles : xlsxStyleSheet) (i : Int) (st : Style)
    (h : cacheLookup styles.styleCache i = some st) :
    styles.getStyle i = (st, styles) := by
  simp [xlsxStyleSheet.getStyle, h]

theorem getStyle_miss_in (styles : xlsxStyleSheet) (i : Int)
    (h : cacheLookup styles.styleCache i = none)
    (hc : (i > -1 && styles.cellXfs.count > 0 && i < styles.cellXfs.count) = true) :
    styles.getStyle i = (resolveStyleAt styles i,
      { styles with styleCache :=
          cacheInsert styles.styleCache i (resolveStyleAt styles i) }) := by
  simp only [xlsxStyleSheet.getStyle, h]
  rw [if_pos hc]

theorem getStyle_miss_out (styles : xlsxStyleSheet) (i : Int)
    (h : cacheLookup styles.styleCache i = none)
    (hc : (i > -1 && styles.cellXfs.count > 0 && i < styles.cellXfs.count) = false) :
    styles.getStyle i = (emptyStyle, styles) := by
  simp only [xlsxStyleSheet.getStyle, h]
  rw [if_neg (by simp [hc])]

theorem getStyle_stable (styles : xlsxStyleSheet) (i : Int) :
    ((styles.getStyle i).2.getStyle i).1 = (styles.getStyle i).1 := by
  cases h : cacheLookup styles.styleCache i with
  | some st => rw [getStyle_cached styles i st h, getStyle_cached styles i st h]
  | none =>
    by_cases hc : (i > -1 && styles.cellXfs.count > 0 && i < styles.cellXfs.count) = true
    · rw [getStyle_miss_in styles i h hc]
      have h2 : cacheLookup (cacheInsert styles.styleCache i (resolveStyleAt styles i)) i =
          some (resolveStyleAt styles i) := cacheLookup_insert _ _ _
      rw [getStyle_cached _ i _ h2]
    · have hcf := Bool.eq_false_iff.mpr hc
      rw [getStyle_miss_out styles i h hcf, getStyle_miss_out styles i h hcf]

theorem reset_preserves_styleCache (styles : xlsxStyleSheet) :
    (styles.reset).styleCache = styles.styleCache := rfl

/-- C7 (amended): `getStyle` called twice with no intervening mutation
returns equal results; but `reset` (xmlStyle.go:196-233) does not clear the
resolved-style cache, so a `getStyle(i)` call after `reset` returns the
previously cached value whenever index `i` was cached, rather than
recomputing from the current (reset) tables. -/
theorem C7_cache_behavior :
    (∀ (styles : xlsxStyleSheet) (i : Int),
      ((styles.getStyle i).2.getStyle i).1 = (styles.getStyle i).1) ∧
    (∀ styles : xlsxStyleSheet, (styles.reset).styleCache = styles.styleCache) ∧
    (∀ (styles : xlsxStyleSheet) (i : Int) (st : Style),
      cacheLookup styles.styleCache i = some st →
      ((styles.reset).getStyle i).1 = st) := by
  refine ⟨getStyle_stable, reset_preserves_styleCache, ?_⟩
  intro styles i st h
  unfold xlsxStyleSheet.getStyle
  rw [reset_preserves_styleCache, h]

/-- C7 (counterexample): on a sheet whose cell format 0 applies its border,
`getStyle 0` caches a style with `applyBorder = true`; after `reset` the next
`getStyle 0` still returns that stale cached value, while recomputing from
the current (reset) tables — the same sheet with an emptied cache — yields
`applyBorder = false`.  The claim that the next call after a reset recomputes
from the current tables is therefore false. -/
theorem C7_counterexample_stale :
    ((sheetC7.getStyle 0).2.reset.getStyle 0).1.applyBorder = true ∧
    ({ (sheetC7.getStyle 0).2.reset with
        styleCache := [] }.getStyle 0).1.applyBorder = false := by
  refine ⟨by decide, by decide⟩

theorem C7_witness :
    cacheLookup ((sheetC7.getStyle 0).2).styleCache 0 =
      some (sheetC7.getStyle 0).1 ∧
    (((sheetC7.getStyle 0).2.reset).getStyle 0).1 = (sheetC7.getStyle 0).1 := by
  refine ⟨by decide, ?_⟩
  exact C7_cache_behavior.2.2 (sheetC7.getStyle 0).2 0 (sheetC7.getStyle 0).1
    (by decide)

/- ===================  populateStyleFromXf projections (C8, C9)  =================== -/

theorem populateBorder_font (styles : xlsxStyleSheet) (st : Style) (xf : xlsxXf) :
    (populateBorder styles st xf).font = st.font := by
  unfold populateBorder; split <;> rfl

theorem populateBorder_fill (styles : xlsxStyleSheet) (st : Style) (xf : xlsxXf) :
    (populateBorder styles st xf).fill = st.fill := by
  unfold populateBorder; split <;> rfl

theorem populateBorder_alignment (styles : xlsxStyleSheet) (st : Style) (xf : xlsxXf) :
    (populateBorder styles st xf).alignment = st.alignment := by
  unfold populateBorder; split <;> rfl

theorem populateBorder_flags (styles : xlsxStyleSheet) (st : Style) (xf : xlsxXf) :
    (populateBorder styles st xf).applyBorder = st.applyBorder ∧
    (populateBorder styles st xf).applyFill = st.applyFill ∧
    (populateBorder styles st xf).applyFont = st.applyFont ∧
    (populateBorder styles st xf).applyAlignment = st.applyAlignment := by
  unfold populateBorder; split <;> exact ⟨rfl, rfl, rfl, rfl⟩

theorem populateBorder_skip (styles : xlsxStyleSheet) (st : Style) (xf : xlsxXf)
    (h : (xf.borderId > -1 && xf.borderId < styles.borders.count) = false) :
    (populateBorder styles st xf).border = st.border := by
  unfold populateBorder
  rw [if_neg (by simp [h])]

theorem populateFill_font (styles : xlsxStyleSheet) (st : Style) (xf : xlsxXf) :
    (populateFill styles st xf).font = st.font := by
  unfold populateFill; split <;> rfl

theorem populateFill_border (styles : xlsxStyleSheet) (st : Style) (xf : xlsxXf) :
    (populateFill styles st xf).border = st.border := by
  unfold populateFill; split <;> rfl

theorem populateFill_alignment (styles : xlsxStyleSheet) (st : Style) (xf : xlsxXf) :
    (populateFill styles st xf).alignment = st.alignment := by
  unfold populateFill; split <;> rfl

theorem populateFill_flags (styles : xlsxStyleSheet) (st : Style) (xf : xlsxXf) :
    (populateFill styles st xf).applyBorder = st.applyBorder ∧
    (populateFill styles st xf).applyFill = st.applyFill ∧
    (populateFill styles st xf).applyFont = st.applyFont ∧
    (populateFill styles st xf).applyAlignment = st.applyAlignment := by
  unfold populateFill; split <;> exact ⟨rfl, rfl, rfl, rfl⟩

theorem populateFill_skip (styles : xlsxStyleSheet) (st : Style) (xf : xlsxXf)
    (h : (xf.fillId > -1 && xf.fillId < styles.fills.count) = false) :
    (populateFill styles st xf).fill = st.fill := by
  unfold populateFill
  rw [if_neg (by simp [h])]

theorem populateFont_border (styles : xlsxStyleSheet) (st : Style) (xf : xlsxXf) :
    (populateFont styles st xf).border = st.border := by
  unfold populateFont; split <;> rfl

theorem populateFont_fill (styles : xlsxStyleSheet) (st : Style) (xf : xlsxXf) :
    (populateFont styles st xf).fill = st.fill := by
  unfold populateFont; split <;> rfl

theorem populateFont_alignment (styles : xlsxStyleSheet) (st : Style) (xf : xlsxXf) :
    (populateFont styles st xf).alignment = st.alignment := by
  unfold populateFont; split <;> rfl

theorem populateFont_flags (styles : xlsxStyleSheet) (st : Style) (xf : xlsxXf) :
    (populateFont styles st xf).applyBorder = st.applyBorder ∧
    (populateFont styles st xf).applyFill = st.applyFill ∧
    (populateFont styles st xf).applyFont = st.applyFont ∧
    (populateFont styles st xf).applyAlignment = st.applyAlignment := by
  unfold populateFont; split <;> exact ⟨rfl, rfl, rfl, rfl⟩

theorem populateFont_skip (styles : xlsxStyleSheet) (st : Style) (xf : xlsxXf)
    (h : (xf.fontId > -1 && xf.fontId < styles.fonts.count) = false) :
    (populateFont styles st xf).font = st.font := by
  unfold populateFont
  rw [if_neg (by simp [h])]

theorem populateAlign_font (st : Style) (xf : xlsxXf) :
    (populateAlign st xf).font = st.font := by
  unfold populateAlign; split <;> split <;> split <;> rfl

theorem populateAlign_fill (st : Style) (xf : xlsxXf) :
    (populateAlign st xf).fill = st.fill := by
  unfold populateAlign; split <;> split <;> split <;> rfl

theorem populateAlign_border (st : Style) (xf : xlsxXf) :
    (populateAlign st xf).border = st.border := by
  unfold populateAlign; split <;> split <;> split <;> rfl

theorem populateAlign_flags (st : Style) (xf : xlsxXf) :
    (populateAlign st xf).applyBorder = st.applyBorder ∧
    (populateAlign st xf).applyFill = st.applyFill ∧
    (populateAlign st xf).applyFont = st.applyFont ∧
    (populateAlign st xf).applyAlignment = st.applyAlignment := by
  unfold populateAlign; split <;> split <;> split <;> exact ⟨rfl, rfl, rfl, rfl⟩

theorem populateAlign_vertical (st : Style) (xf : xlsxXf) :
    (populateAlign st xf).alignment.vertical =
      (if (xf.alignment.vertical != "") = true then xf.alignment.vertical
       else st.alignment.vertical) := by
  by_cases hv : (xf.alignment.vertical != "") = true
  · simp only [populateAlign, hv, if_true]
    split <;> split <;> rfl
  · have hvf : (xf.alignment.vertical != "") = false := Bool.eq_false_iff.mpr hv
    simp only [populateAlign, hvf, Bool.false_eq_true, if_false]
    split <;> split <;> rfl

theorem populate_flags (styles : xlsxStyleSheet) (st0 : Style) (xf : xlsxXf) :
    (styles.populateStyleFromXf st0 xf).applyBorder = xf.applyBorder ∧
    (styles.populateStyleFromXf st0 xf).applyFill = xf.applyFill ∧
    (styles.populateStyleFromXf st0 xf).applyFont = xf.applyFont ∧
    (styles.populateStyleFromXf st0 xf).applyAlignment = xf.applyAlignment := by
  unfold xlsxStyleSheet.populateStyleFromXf
  refine ⟨?_, ?_, ?_, ?_⟩ <;>
    simp [populateAlign_flags, populateFont_flags, populateFill_flags,
      populateBorder_flags]

theorem populate_vertical (styles : xlsxStyleSheet) (st0 : Style) (xf : xlsxXf) :
    (styles.populateStyleFromXf st0 xf).alignment.vertical =
      (if (xf.alignment.vertical != "") = true then xf.alignment.vertical
       else st0.alignment.vertical) := by
  unfold xlsxStyleSheet.populateStyleFromXf
  rw [populateAlign_vertical, populateFont_alignment, populateFill_alignment,
    populateBorder_alignment]

theorem listGetD_of_get? {α : Type} (d : α) :
    ∀ (l : List α) (n : Nat) (x : α), l.get? n = some x → l.getD n d = x := by
  intro l
  induction l with
  | nil => intro n x h; simp at h
  | cons a as ih =>
    intro n x h
    cases n with
    | zero => simp at h; simp [List.getD, h]
    | succ m =>
      simp only [List.get?_cons_succ] at h
      simpa [List.getD] using ih m x h

/-- C9: a `CellFormat` whose `fontId`, `fillId` or `borderId` is out of the
corresponding table's bounds (negative or at least the table count) is
resolved without failure and contributes no fields for that aspect: the
resolved style's font (fill, border) component is exactly the one it started
with.  The bounds guard precedes every table access, so resolution is total. -/
theorem C9_outOfBounds_skipped (styles : xlsxStyleSheet) (st0 : Style)
    (xf : xlsxXf) :
    (xf.fontId < 0 ∨ styles.fonts.count ≤ xf.fontId →
      (styles.populateStyleFromXf st0 xf).font = st0.font) ∧
    (xf.fillId < 0 ∨ styles.fills.count ≤ xf.fillId →
      (styles.populateStyleFromXf st0 xf).fill = st0.fill) ∧
    (xf.borderId < 0 ∨ styles.borders.count ≤ xf.borderId →
      (styles.populateStyleFromXf st0 xf).border = st0.border) := by
  refine ⟨?_, ?_, ?_⟩
  · intro h
    have hc : (xf.fontId > -1 && xf.fontId < styles.fonts.count) = false := by
      rcases h with h | h
      · have hn : ¬(xf.fontId > -1) := by omega
        simp [hn]
      · have hn : ¬(xf.fontId < styles.fonts.count) := by omega
        simp [hn]
    unfold xlsxStyleSheet.populateStyleFromXf
    rw [populateAlign_font, populateFont_skip _ _ _ hc, populateFill_font,
      populateBorder_font]
  · intro h
    have hc : (xf.fillId > -1 && xf.fillId < styles.fills.count) = false := by
      rcases h with h | h
      · have hn : ¬(xf.fillId > -1) := by omega
        simp [hn]
      · have hn : ¬(xf.fillId < styles.fills.count) := by omega
        simp [hn]
    unfold xlsxStyleSheet.populateStyleFromXf
    rw [populateAlign_fill, populateFont_fill, populateFill_skip _ _ _ hc,
      populateBorder_fill]
  · intro h
    have hc : (xf.borderId > -1 && xf.borderId < styles.borders.count) = false := by
      rcases h with h | h
      · have hn : ¬(xf.borderId > -1) := by omega
        simp [hn]
      · have hn : ¬(xf.borderId < styles.borders.count) := by omega
        simp [hn]
    unfold xlsxStyleSheet.populateStyleFromXf
    rw [populateAlign_border, populateFont_border, populateFill_border,
      populateBorder_skip _ _ _ hc]

theorem C9_witness :
    sheetC9.fonts.count = 3 ∧ xfFont5.fontId = 5 ∧
    (sheetC9.populateStyleFromXf emptyStyle xfFont5).font = emptyStyle.font := by
  refine ⟨rfl, rfl, ?_⟩
  exact (C9_outOfBounds_skipped sheetC9 emptyStyle xfFont5).1
    (Or.inr (by decide))

/-- C8 (amended): for an in-bounds, uncached style index whose cell format
references an in-bounds named cell format, the effective apply flags are the
logical OR of the cell format's and the named format's flags; but the named
format's alignment is never consulted — the resolved vertical alignment is
the cell format's own vertical value when non-empty and the empty default
otherwise, regardless of the named format's vertical value. -/
theorem C8_cascade_or_flags (styles : xlsxStyleSheet) (i j : Int)
    (xf named : xlsxXf) (csxfs : xlsxCellStyleXfs)
    (hmiss : cacheLookup styles.styleCache i = none)
    (h0 : 0 ≤ i) (hlt : i < styles.cellXfs.count)
    (hxf : styles.cellXfs.xf.get? i.toNat = some xf)
    (hid : xf.xfId = some j) (h0j : 0 ≤ j)
    (hcs : styles.cellStyleXfs = some csxfs)
    (hnamed : csxfs.xf.get? j.toNat = some named) :
    (styles.getStyle i).1.applyBorder = (xf.applyBorder || named.applyBorder) ∧
    (styles.getStyle i).1.applyFill = (xf.applyFill || named.applyFill) ∧
    (styles.getStyle i).1.applyFont = (xf.applyFont || named.applyFont) ∧
    (styles.getStyle i).1.applyAlignment =
      (xf.applyAlignment || named.applyAlignment) ∧
    (styles.getStyle i).1.alignment.vertical =
      (if (xf.alignment.vertical != "") = true then xf.alignment.vertical
       else "") := by
  have hjlen : j.toNat < csxfs.xf.length := by
    by_contra hge
    rw [List.get?_eq_none.mpr (by omega)] at hnamed
    exact Option.noConfusion hnamed
  have hcond : (i > -1 && styles.cellXfs.count > 0 && i < styles.cellXfs.count) = true := by
    simp only [Bool.and_eq_true, decide_eq_true_eq]
    omega
  have hget : styles.cellXfs.xf.getD i.toNat default = xf :=
    listGetD_of_get? default styles.cellXfs.xf i.toNat xf hxf
  have hgetn : csxfs.xf.getD j.toNat default = named :=
    listGetD_of_get? default csxfs.xf j.toNat named hnamed
  have hjx : j < (csxfs.xf.length : Int) := by omega
  have hflags := populate_flags styles emptyStyle xf
  have hvert := populate_vertical styles emptyStyle xf
  rw [getStyle_miss_in styles i hmiss hcond]
  simp only [resolveStyleAt, hget, hid, hcs]
  rw [if_pos hjx]
  simp only [hgetn]
  refine ⟨?_, ?_, ?_, ?_, ?_⟩
  · split <;> simp [hflags.1]
  · split <;> simp [hflags.2.1]
  · split <;> simp [hflags.2.2.1]
  · split <;> simp [hflags.2.2.2]
  · by_cases hv : (xf.alignment.vertical != "") = true
    · simp [hv]
    · have hvf : (xf.alignment.vertical != "") = false := Bool.eq_false_iff.mpr hv
      simp only [hvf, Bool.false_eq_true, if_false]
      simp only [hvf, Bool.false_eq_true, if_false] at hvert
      rw [hvert]
      rfl

/-- C8 (counterexample): on `sheetC8`, cell format 0 has no vertical
alignment of its own and references named format 0 whose vertical alignment
is "top" and whose apply-border flag is true.  The resolved style does OR the
apply flags (applyBorder becomes true), but its vertical alignment is the
empty default, not the named format's "top" — so the claim that the named
format's vertical value is used when the cell format's own value is absent is
false. -/
theorem C8_counterexample_vertical :
    namedTopXf.alignment.vertical = "top" ∧
    cellRefXf.alignment.vertical = "" ∧
    (sheetC8.getStyle 0).1.applyBorder = true ∧
    (sheetC8.getStyle 0).1.alignment.vertical = "" ∧
    (sheetC8.getStyle 0).1.alignment.vertical ≠ namedTopXf.alignment.vertical := by
  refine ⟨rfl, rfl, by decide, by decide, by decide⟩

theorem C8_witness :
    (sheetC8.getStyle 0).1.applyBorder = (cellRefXf.applyBorder || namedTopXf.applyBorder) ∧
    (sheetC8.getStyle 0).1.applyFill = (cellRefXf.applyFill || namedTopXf.applyFill) ∧
    (sheetC8.getStyle 0).1.applyFont = (cellRefXf.applyFont || namedTopXf.applyFont) ∧
    (sheetC8.getStyle 0).1.applyAlignment =
      (cellRefXf.applyAlignment || namedTopXf.applyAlignment) ∧
    (sheetC8.getStyle 0).1.alignment.vertical =
      (if (cellRefXf.alignment.vertical != "") = true then
        cellRefXf.alignment.vertical else "") :=
  C8_cascade_or_flags sheetC8 0 0 cellRefXf namedTopXf
    { count := 1, xf := [namedTopXf] } rfl (by decide) (by decide) rfl rfl
    (by decide) rfl rfl

/- ===================  Number-format lemmas (C3)  =================== -/

theorem countP_le_split (l : List Int) (s : Int) :
    l.countP (fun k => decide (s ≤ k)) =
      l.countP (fun k => decide (s + 1 ≤ k)) + l.count s := by
  induction l with
  | nil => simp
  | cons a l ih =>
    simp only [List.countP_cons, List.count_cons, ih]
    by_cases ha : a = s
    · subst ha
      simp
      omega
    · have hbe : (a == s) = false := beq_eq_false_iff_ne.mpr ha
      by_cases hle : s ≤ a
      · have h1 : decide (s ≤ a) = true := by simpa using hle
        have h2 : decide (s + 1 ≤ a) = true := by
          simp only [decide_eq_true_eq]
          omega
        simp [h1, h2, hbe]
        omega
      · have h1 : decide (s ≤ a) = false := by simpa using hle
        have h2 : decide (s + 1 ≤ a) = false := by
          simp only [decide_eq_false_iff_not]
          omega
        simp [h1, h2, hbe]

theorem refLookup_some_mem (tbl : List (Int × xlsxNumFmt)) (s : Int)
    (nf : xlsxNumFmt) (h : numFmtRefLookup (some tbl) s = some nf) :
    s ∈ tbl.map Prod.fst := by
  simp only [numFmtRefLookup] at h
  cases hf : tbl.find? (fun p => p.1 == s) with
  | none => rw [hf] at h; simp at h
  | some p =>
    have hp := List.find?_some hf
    have hmem := List.mem_of_find?_eq_some hf
    have : p.1 = s := by simpa using hp
    subst this
    exact List.mem_map_of_mem Prod.fst hmem

theorem refLookup_none_not_mem (tbl : List (Int × xlsxNumFmt)) (s : Int)
    (h : numFmtRefLookup (some tbl) s = none) :
    s ∉ tbl.map Prod.fst := by
  simp only [numFmtRefLookup] at h
  cases hf : tbl.find? (fun p => p.1 == s) with
  | some p => rw [hf] at h; simp at h
  | none =>
    intro hmem
    obtain ⟨p, hp, hfst⟩ := List.mem_map.mp hmem
    have := List.find?_eq_none.mp hf p hp
    simp [hfst] at this

theorem firstFreeAux_spec (tbl : List (Int × xlsxNumFmt))
    (hnd : (tbl.map Prod.fst).Nodup) :
    ∀ (fuel : Nat) (start : Int),
      (tbl.map Prod.fst).countP (fun k => decide (start ≤ k)) < fuel →
      numFmtRefLookup (some tbl) (firstFreeAux (some tbl) fuel start) = none ∧
      start ≤ firstFreeAux (some tbl) fuel start ∧
      (∀ j, start ≤ j → j < firstFreeAux (some tbl) fuel start →
        numFmtRefLookup (some tbl) j ≠ none) := by
  intro fuel
  induction fuel with
  | zero => intro start h; omega
  | succ n ih =>
    intro start hcnt
    cases hl : numFmtRefLookup (some tbl) start with
    | none =>
      refine ⟨by simp [firstFreeAux, hl], by simp [firstFreeAux, hl], ?_⟩
      intro j hj1 hj2
      simp only [firstFreeAux, hl] at hj2
      omega
    | some nf =>
      have hmem : start ∈ tbl.map Prod.fst := refLookup_some_mem tbl start nf hl
      have hone : (tbl.map Prod.fst).count start = 1 :=
        List.count_eq_one_of_mem hnd hmem
      have hsplit := countP_le_split (tbl.map Prod.fst) start
      have hcnt2 : (tbl.map Prod.fst).countP (fun k => decide (start + 1 ≤ k)) < n := by
        omega
      obtain ⟨h1, h2, h3⟩ := ih (start + 1) hcnt2
      have hstep : firstFreeAux (some tbl) (n + 1) start =
          firstFreeAux (some tbl) n (start + 1) := by
        simp [firstFreeAux, hl]
      rw [hstep]
      refine ⟨h1, by omega, ?_⟩
      intro j hj1 hj2
      by_cases hjs : j = start
      · subst hjs
        simp [hl]
      · exact h3 j (by omega) hj2

theorem find?_append_of_none {α : Type} (p : α → Bool) (l1 l2 : List α)
    (h : l1.find? p = none) : (l1 ++ l2).find? p = l2.find? p := by
  induction l1 with
  | nil => simp
  | cons a l ih =>
    have ha := List.find?_eq_none.mp h a (by simp)
    have hf : p a = false := by simpa using ha
    have hrest : l.find? p = none := by
      rw [List.find?_eq_none]
      intro x hx
      exact List.find?_eq_none.mp h x (by simp [hx])
    simp [List.find?, hf, ih hrest]

theorem refLookup_getD (tbl : Option (List (Int × xlsxNumFmt))) (id : Int) :
    numFmtRefLookup tbl id = numFmtRefLookup (some (tbl.getD [])) id := by
  cases tbl <;> rfl

theorem firstFreeAux_getD (tbl : Option (List (Int × xlsxNumFmt))) :
    ∀ (fuel : Nat) (start : Int),
      firstFreeAux tbl fuel start = firstFreeAux (some (tbl.getD [])) fuel start := by
  cases tbl with
  | some l => intro fuel start; rfl
  | none =>
    intro fuel
    induction fuel with
    | zero => intro start; rfl
    | succ n ih =>
      intro start
      simp [firstFreeAux, numFmtRefLookup]

/-- C3: `newNumFmt` returns id 0 when the code case-normalizes to "general";
the fixed built-in id without registering anything when the code exactly
matches a built-in format string; the already-registered format when the code
exactly matches a registered custom format; and otherwise registers the code
under the smallest unused custom id at least 164 (scanning upward over used
ids) and returns it — so custom ids stay at least 164 and unique within the
style sheet, and a subsequent call with the same string returns the same
id. -/
theorem C3_newNumFmt (styles : xlsxStyleSheet) (code : String)
    (hnd : ((styles.numFmtRefTable.getD []).map Prod.fst).Nodup)
    (hge : ∀ p ∈ styles.numFmtRefTable.getD [], 164 ≤ p.1)
    (hsync : ∀ nf ∈ (styles.numFmts.getD { count := 0, numFmt := [] }).numFmt,
      (numFmtRefLookup styles.numFmtRefTable nf.numFmtId).isSome = true) :
    (compareFormatString code "general" = true →
      styles.newNumFmt code = ({ numFmtId := 0, formatCode := "general" }, styles)) ∧
    (∀ id : Int, compareFormatString code "general" = false →
      builtInNumFmtInv code = some id →
      styles.newNumFmt code = ({ numFmtId := id, formatCode := code }, styles)) ∧
    (∀ nf : xlsxNumFmt, compareFormatString code "general" = false →
      builtInNumFmtInv code = none →
      (styles.numFmts.getD { count := 0, numFmt := [] }).numFmt.find?
        (fun numFmt => code == numFmt.formatCode) = some nf →
      styles.newNumFmt code = (nf, styles)) ∧
    (compareFormatString code "general" = false →
      builtInNumFmtInv code = none →
      (styles.numFmts.getD { count := 0, numFmt := [] }).numFmt.find?
        (fun numFmt => code == numFmt.formatCode) = none →
      (styles.newNumFmt code).1.formatCode = code ∧
      numFmtRefLookup styles.numFmtRefTable (styles.newNumFmt code).1.numFmtId = none ∧
      164 ≤ (styles.newNumFmt code).1.numFmtId ∧
      (∀ j, 164 ≤ j → j < (styles.newNumFmt code).1.numFmtId →
        numFmtRefLookup styles.numFmtRefTable j ≠ none) ∧
      (∀ nf ∈ (styles.numFmts.getD { count := 0, numFmt := [] }).numFmt,
        nf.numFmtId ≠ (styles.newNumFmt code).1.numFmtId) ∧
      (styles.newNumFmt code).2.numFmtRefTable =
        some ((styles.numFmtRefTable.getD []) ++
          [((styles.newNumFmt code).1.numFmtId, (styles.newNumFmt code).1)]) ∧
      ((styles.newNumFmt code).2.numFmts.getD { count := 0, numFmt := [] }).numFmt =
        (styles.numFmts.getD { count := 0, numFmt := [] }).numFmt ++
          [(styles.newNumFmt code).1] ∧
      (((styles.newNumFmt code).2.numFmtRefTable.getD []).map Prod.fst).Nodup ∧
      (∀ p ∈ (styles.newNumFmt code).2.numFmtRefTable.getD [], 164 ≤ p.1) ∧
      ((styles.newNumFmt code).2.newNumFmt code).1 = (styles.newNumFmt code).1) := by
  refine ⟨?_, ?_, ?_, ?_⟩
  · intro h
    simp only [xlsxStyleSheet.newNumFmt, h, if_true]
  · intro id hg hb
    simp only [xlsxStyleSheet.newNumFmt, hg, Bool.false_eq_true, if_false, hb]
  · intro nf hg hb hfind
    simp only [xlsxStyleSheet.newNumFmt, hg, Bool.false_eq_true, if_false, hb,
      hfind]
  · intro hg hb hfind
    have hfid : ∀ r : xlsxNumFmt × xlsxStyleSheet, r = styles.newNumFmt code →
        r = ({ numFmtId := firstFreeAux styles.numFmtRefTable
                 ((styles.numFmtRefTable.getD []).length + 1) 164
             , formatCode := code },
             styles.addNumFmt
               { numFmtId := firstFreeAux styles.numFmtRefTable
                   ((styles.numFmtRefTable.getD []).length + 1) 164
               , formatCode := code }) := by
      intro r hr
      rw [hr]
      simp only [xlsxStyleSheet.newNumFmt, hg, Bool.false_eq_true, if_false, hb,
        hfind]
      rfl
    have hndef := hfid (styles.newNumFmt code) rfl
    set fid := firstFreeAux styles.numFmtRefTable
      ((styles.numFmtRefTable.getD []).length + 1) 164 with hfiddef
    set T := styles.numFmtRefTable.getD [] with hTdef
    have hcnt : (T.map Prod.fst).countP (fun k => decide (164 ≤ k)) < T.length + 1 := by
      have h1 := List.countP_le_length (fun k => decide ((164 : Int) ≤ k))
        (l := T.map Prod.fst)
      rw [List.length_map] at h1
      omega
    have hbridge : fid = firstFreeAux (some T) (T.length + 1) 164 := by
      rw [hfiddef, firstFreeAux_getD]
    obtain ⟨hfree, hge164, hmin⟩ :=
      firstFreeAux_spec T hnd (T.length + 1) 164 hcnt
    rw [← hbridge] at hfree hge164 hmin
    have hfree' : numFmtRefLookup styles.numFmtRefTable fid = none := by
      rw [refLookup_getD]
      exact hfree
    have haddeq : styles.addNumFmt { numFmtId := fid, formatCode := code } =
        { styles with
          numFmts := some
            { count := (styles.numFmts.getD { count := 0, numFmt := [] }).count + 1
            , numFmt := (styles.numFmts.getD { count := 0, numFmt := [] }).numFmt ++
                [{ numFmtId := fid, formatCode := code }] }
          numFmtRefTable := some (T ++ [(fid, { numFmtId := fid, formatCode := code })]) } := by
      simp only [xlsxStyleSheet.addNumFmt, hfree']
      rw [if_neg (by simp only [builtinNumFmtsCount]; omega)]
    have hfst : (styles.newNumFmt code).1 =
        { numFmtId := fid, formatCode := code } := by rw [hndef]
    have hsnd : (styles.newNumFmt code).2 =
        styles.addNumFmt { numFmtId := fid, formatCode := code } := by rw [hndef]
    have hnotmem : fid ∉ T.map Prod.fst := refLookup_none_not_mem T fid hfree
    refine ⟨by rw [hfst], by rw [hfst]; exact hfree', by rw [hfst]; exact hge164,
      ?_, ?_, ?_, ?_, ?_, ?_, ?_⟩
    · intro j hj1 hj2
      rw [hfst] at hj2
      have := hmin j hj1 hj2
      rw [refLookup_getD]
      exact this
    · intro nf hnf heq
      have hs := hsync nf hnf
      rw [heq, hfst] at hs
      rw [hfree'] at hs
      simp at hs
    · rw [hfst, hsnd, haddeq]
    · rw [hfst, hsnd, haddeq]
      rfl
    · rw [hsnd, haddeq]
      simp only [Option.getD_some, List.map_append]
      rw [List.nodup_append]
      refine ⟨hnd, by simp, ?_⟩
      intro a ha hb2
      simp only [List.map_cons, List.map_nil, List.mem_cons, List.not_mem_nil,
        or_false] at hb2
      subst hb2
      exact hnotmem ha
    · rw [hsnd, haddeq]
      intro p hp
      simp only [Option.getD_some, List.mem_append, List.mem_cons,
        List.not_mem_nil, or_false] at hp
      rcases hp with hp | hp
      · exact hge p hp
      · subst hp
        exact hge164
    · have hfind2 : ((styles.numFmts.getD { count := 0, numFmt := [] }).numFmt ++
          [({ numFmtId := fid, formatCode := code } : xlsxNumFmt)]).find?
            (fun numFmt => code == numFmt.formatCode) =
          some ({ numFmtId := fid, formatCode := code } : xlsxNumFmt) := by
        rw [find?_append_of_none _ _ _ hfind]
        simp [List.find?]
      rw [hfst, hsnd, haddeq]
      simp only [xlsxStyleSheet.newNumFmt, hg, Bool.false_eq_true, if_false, hb,
        Option.getD_some]
      rw [hfind2]

theorem C3_witness :
    (sheet0.newNumFmt "abc").1.formatCode = "abc" ∧
    numFmtRefLookup sheet0.numFmtRefTable (sheet0.newNumFmt "abc").1.numFmtId = none ∧
    164 ≤ (sheet0.newNumFmt "abc").1.numFmtId ∧
    ((sheet0.newNumFmt "abc").2.newNumFmt "abc").1 = (sheet0.newNumFmt "abc").1 := by
  have h := (C3_newNumFmt sheet0 "abc" (by decide) (by decide) (by decide)).2.2.2
    (by decide) (by decide) rfl
  exact ⟨h.1, h.2.1, h.2.2.1, h.2.2.2.2.2.2.2.2.2⟩

/- ===================  Marshal count lemmas (C4)  =================== -/

theorem strData_append (s t : String) : (s ++ t).data = s.data ++ t.data := rfl

theorem strAppend_ne_left (s t : String) (h : s ≠ "") : s ++ t ≠ "" := by
  intro he
  apply h
  have hd := congrArg String.data he
  rw [strData_append] at hd
  have := List.append_eq_nil.mp hd
  exact String.ext this.1

theorem strAppend_ne_right (s t : String) (h : t ≠ "") : s ++ t ≠ "" := by
  intro he
  apply h
  have hd := congrArg String.data he
  rw [strData_append] at hd
  have := List.append_eq_nil.mp hd
  exact String.ext this.2

theorem numFmt_Marshal_ne (nf : xlsxNumFmt) : nf.Marshal ≠ "" := by
  unfold xlsxNumFmt.Marshal
  exact strAppend_ne_left _ _ (strAppend_ne_left _ _ (strAppend_ne_left _ _
    (strAppend_ne_left _ _ (by decide))))

theorem font_Marshal_ne (f : xlsxFont) : f.Marshal ≠ "" := by
  unfold xlsxFont.Marshal
  exact strAppend_ne_right _ _ (by decide)

theorem border_Marshal_ne (b : xlsxBorder) : b.Marshal ≠ "" := by
  unfold xlsxBorder.Marshal
  exact strAppend_ne_left _ _ (strAppend_ne_left _ _ (strAppend_ne_left _ _
    (strAppend_ne_left _ _ (strAppend_ne_left _ _ (by decide)))))

theorem xf_Marshal_ne (xf : xlsxXf) (bm fm fnm : List (Int × Int)) :
    xf.Marshal bm fm fnm ≠ "" := by
  unfold xlsxXf.Marshal
  exact strAppend_ne_right _ _ (by decide)

theorem cellStyle_Marshal_ne (cs : xlsxCellStyle) : xmlMarshalCellStyle cs ≠ "" := by
  unfold xmlMarshalCellStyle
  exact strAppend_ne_right _ _ (by decide)

theorem marshalScan_go {α : Type} (m : α → String) :
    ∀ (l : List α) (acc : MarshalAcc),
      (l.foldl (fun acc x =>
        let xs := m x
        if xs == "" then { acc with idx := acc.idx + 1 }
        else { idx := acc.idx + 1, emitted := acc.emitted + 1
             , subparts := acc.subparts ++ xs
             , outMap := acc.outMap ++ [(acc.idx, acc.emitted)] }) acc).emitted =
          acc.emitted + (((l.map m).filter (fun s => s != "")).length : Int) ∧
      (l.foldl (fun acc x =>
        let xs := m x
        if xs == "" then { acc with idx := acc.idx + 1 }
        else { idx := acc.idx + 1, emitted := acc.emitted + 1
             , subparts := acc.subparts ++ xs
             , outMap := acc.outMap ++ [(acc.idx, acc.emitted)] }) acc).subparts =
          acc.subparts ++ strConcat ((l.map m).filter (fun s => s != "")) := by
  intro l
  induction l with
  | nil => intro acc; simp [strConcat]
  | cons x xs ih =>
    intro acc
    by_cases hx : (m x == "") = true
    · have hxe : m x = "" := by simpa using hx
      have hfe : (m x != "") = false := by simp [hxe]
      simp only [List.foldl_cons, List.map_cons, List.filter_cons, hfe,
        Bool.false_eq_true, if_false, hxe, beq_self_eq_true, if_true]
      exact ih _
    · have hxne : (m x == "") = false := by simpa using hx
      have hft : (m x != "") = true := by simp [bne]; simpa using hx
      simp only [List.foldl_cons, List.map_cons, List.filter_cons, hft, if_true,
        hxne, Bool.false_eq_true, if_false]
      obtain ⟨h1, h2⟩ := ih
        { idx := acc.idx + 1
          emitted := acc.emitted + 1
          subparts := acc.subparts ++ m x
          outMap := acc.outMap ++ [(acc.idx, acc.emitted)] }
      refine ⟨?_, ?_⟩
      · rw [h1]
        simp [strConcat]
        omega
      · rw [h2]
        simp [strConcat, String.append_assoc]

theorem marshalScan_spec {α : Type} (m : α → String) (l : List α) :
    (marshalScan m l).emitted = (((l.map m).filter (fun s => s != "")).length : Int) ∧
    (marshalScan m l).subparts = strConcat ((l.map m).filter (fun s => s != "")) := by
  have h := marshalScan_go m l { idx := 0, emitted := 0, subparts := "", outMap := [] }
  unfold marshalScan
  obtain ⟨h1, h2⟩ := h
  constructor
  · rw [h1]; simp
  · rw [h2]; simp [String.append]

theorem ifCount_eq (cnt : Int) (l : List String) (pre mid post : String)
    (hc : cnt = (l.length : Int))
    (hflt : l.filter (fun s => s != "") = l) :
    (if cnt > 0 then pre ++ toString cnt ++ mid ++ strConcat l ++ post else "") =
    (if 0 < (l.filter (fun s => s != "")).length then
       pre ++ toString (((l.filter (fun s => s != "")).length : Int)) ++ mid ++
         strConcat (l.filter (fun s => s != "")) ++ post
     else "") := by
  rw [hflt]
  subst hc
  by_cases hp : 0 < l.length
  · rw [if_pos (by exact_mod_cast hp), if_pos hp]
  · rw [if_neg (by omega), if_neg hp]

theorem filter_ne_all {l : List String} (h : ∀ s ∈ l, s ≠ "") :
    l.filter (fun s => s != "") = l := by
  apply List.filter_eq_self.mpr
  intro a ha
  simpa using h a ha

theorem ifCast_eq (l2 : List String) (pre mid post : String) :
    (if ((l2.length : Int)) > 0 then
       pre ++ toString ((l2.length : Int)) ++ mid ++ strConcat l2 ++ post
     else "") =
    (if 0 < l2.length then
       pre ++ toString ((l2.length : Int)) ++ mid ++ strConcat l2 ++ post
     else "") := by
  by_cases hp : 0 < l2.length
  · rw [if_pos (by exact_mod_cast hp), if_pos hp]
  · rw [if_neg (by omega), if_neg hp]

/-- C4: in the XML produced by the Marshal functions, every emitted child
element (`numFmts`, `fonts`, `fills`, `borders`, `cellStyleXfs`, `cellXfs`,
`cellStyles`) carries a count attribute exactly equal to the number of
sub-elements actually emitted inside it, where only non-empty marshalled
sub-elements are emitted (for fills this filter is real — an empty pattern
type yields no element; the other children marshal every entry non-empty).
For the children whose source prints the table's `Count` field (`numFmts`,
`fonts`, `cellStyleXfs`, `cellXfs`, `cellStyles`) this holds whenever `Count`
equals the table length, the invariant every mutation path maintains; for
`fills` and `borders` the source prints the emitted count itself and the
property is unconditional. -/
theorem C4_count_attributes :
    (∀ numFmts : xlsxNumFmts, numFmts.count = (numFmts.numFmt.length : Int) →
      numFmts.Marshal =
        (if 0 < ((numFmts.numFmt.map xlsxNumFmt.Marshal).filter
            (fun s => s != "")).length then
          "<numFmts count=\"" ++
            toString ((((numFmts.numFmt.map xlsxNumFmt.Marshal).filter
              (fun s => s != "")).length : Int)) ++ "\">" ++
            strConcat ((numFmts.numFmt.map xlsxNumFmt.Marshal).filter
              (fun s => s != "")) ++ "</numFmts>"
         else "")) ∧
    (∀ fonts : xlsxFonts, fonts.count = (fonts.font.length : Int) →
      (fonts.Marshal).1 =
        (if 0 < ((fonts.font.map xlsxFont.Marshal).filter
            (fun s => s != "")).length then
          "<fonts count=\"" ++
            toString ((((fonts.font.map xlsxFont.Marshal).filter
              (fun s => s != "")).length : Int)) ++ "\">" ++
            strConcat ((fonts.font.map xlsxFont.Marshal).filter
              (fun s => s != "")) ++ "</fonts>"
         else "")) ∧
    (∀ fills : xlsxFills,
      (fills.Marshal).1 =
        (if 0 < ((fills.fill.map xlsxFill.Marshal).filter
            (fun s => s != "")).length then
          "<fills count=\"" ++
            toString ((((fills.fill.map xlsxFill.Marshal).filter
              (fun s => s != "")).length : Int)) ++ "\">" ++
            strConcat ((fills.fill.map xlsxFill.Marshal).filter
              (fun s => s != "")) ++ "</fills>"
         else "")) ∧
    (∀ borders : xlsxBorders,
      (borders.Marshal).1 =
        (if 0 < ((borders.border.map xlsxBorder.Marshal).filter
            (fun s => s != "")).length then
          "<borders count=\"" ++
            toString ((((borders.border.map xlsxBorder.Marshal).filter
              (fun s => s != "")).length : Int)) ++ "\">" ++
            strConcat ((borders.border.map xlsxBorder.Marshal).filter
              (fun s => s != "")) ++ "</borders>"
         else "")) ∧
    (∀ (csx : xlsxCellStyleXfs) (bm fm fnm : List (Int × Int)),
      csx.count = (csx.xf.length : Int) →
      csx.Marshal bm fm fnm =
        (if 0 < ((csx.xf.map (fun xf => xf.Marshal bm fm fnm)).filter
            (fun s => s != "")).length then
          "<cellStyleXfs count=\"" ++
            toString ((((csx.xf.map (fun xf => xf.Marshal bm fm fnm)).filter
              (fun s => s != "")).length : Int)) ++ "\">" ++
            strConcat ((csx.xf.map (fun xf => xf.Marshal bm fm fnm)).filter
              (fun s => s != "")) ++ "</cellStyleXfs>"
         else "")) ∧
    (∀ (cxs : xlsxCellXfs) (bm fm fnm : List (Int × Int)),
      cxs.count = (cxs.xf.length : Int) →
      cxs.Marshal bm fm fnm =
        (if 0 < ((cxs.xf.map (fun xf => xf.Marshal bm fm fnm)).filter
            (fun s => s != "")).length then
          "<cellXfs count=\"" ++
            toString ((((cxs.xf.map (fun xf => xf.Marshal bm fm fnm)).filter
              (fun s => s != "")).length : Int)) ++ "\">" ++
            strConcat ((cxs.xf.map (fun xf => xf.Marshal bm fm fnm)).filter
              (fun s => s != "")) ++ "</cellXfs>"
         else "")) ∧
    (∀ cs : xlsxCellStyles, cs.count = (cs.cellStyle.length : Int) →
      cs.Marshal =
        (if 0 < ((cs.cellStyle.map xmlMarshalCellStyle).filter
            (fun s => s != "")).length then
          "<cellStyles count=\"" ++
            toString ((((cs.cellStyle.map xmlMarshalCellStyle).filter
              (fun s => s != "")).length : Int)) ++ "\">" ++
            strConcat ((cs.cellStyle.map xmlMarshalCellStyle).filter
              (fun s => s != "")) ++ "</cellStyles>"
         else "")) := by
  refine ⟨?_, ?_, ?_, ?_, ?_, ?_, ?_⟩
  · intro nf hc
    have hflt := filter_ne_all (l := nf.numFmt.map xlsxNumFmt.Marshal) (by
      intro s hs
      obtain ⟨x, _, rfl⟩ := List.mem_map.mp hs
      exact numFmt_Marshal_ne x)
    unfold xlsxNumFmts.Marshal
    exact ifCount_eq nf.count _ _ _ _ (by rw [List.length_map]; exact hc) hflt
  · intro fonts hc
    obtain ⟨he, hs⟩ := marshalScan_spec xlsxFont.Marshal fonts.font
    have hflt := filter_ne_all (l := fonts.font.map xlsxFont.Marshal) (by
      intro s hs'
      obtain ⟨x, _, rfl⟩ := List.mem_map.mp hs'
      exact font_Marshal_ne x)
    have hcnt2 : fonts.count =
        (((fonts.font.map xlsxFont.Marshal).filter (fun s => s != "")).length : Int) := by
      rw [hflt, List.length_map]
      exact hc
    simp only [xlsxFonts.Marshal]
    rw [he, hs, hcnt2]
    exact ifCast_eq _ _ _ _
  · intro fills
    obtain ⟨he, hs⟩ := marshalScan_spec xlsxFill.Marshal fills.fill
    simp only [xlsxFills.Marshal]
    rw [he, hs]
    exact ifCast_eq _ _ _ _
  · intro borders
    obtain ⟨he, hs⟩ := marshalScan_spec xlsxBorder.Marshal borders.border
    simp only [xlsxBorders.Marshal]
    rw [he, hs]
    exact ifCast_eq _ _ _ _
  · intro csx bm fm fnm hc
    have hflt := filter_ne_all (l := csx.xf.map (fun xf => xf.Marshal bm fm fnm)) (by
      intro s hs
      obtain ⟨x, _, rfl⟩ := List.mem_map.mp hs
      exact xf_Marshal_ne x bm fm fnm)
    unfold xlsxCellStyleXfs.Marshal
    exact ifCount_eq csx.count _ _ _ _ (by rw [List.length_map]; exact hc) hflt
  · intro cxs bm fm fnm hc
    have hflt := filter_ne_all (l := cxs.xf.map (fun xf => xf.Marshal bm fm fnm)) (by
      intro s hs
      obtain ⟨x, _, rfl⟩ := List.mem_map.mp hs
      exact xf_Marshal_ne x bm fm fnm)
    unfold xlsxCellXfs.Marshal
    exact ifCount_eq cxs.count _ _ _ _ (by rw [List.length_map]; exact hc) hflt
  · intro cs hc
    have hflt := filter_ne_all (l := cs.cellStyle.map xmlMarshalCellStyle) (by
      intro s hs
      obtain ⟨x, _, rfl⟩ := List.mem_map.mp hs
      exact cellStyle_Marshal_ne x)
    unfold xlsxCellStyles.Marshal
    exact ifCount_eq cs.count _ _ _ _ (by rw [List.length_map]; exact hc) hflt

theorem C4_witness :
    (numFmtsW.Marshal =
      (if 0 < ((numFmtsW.numFmt.map xlsxNumFmt.Marshal).filter
          (fun s => s != "")).length then
        "<numFmts count=\"" ++
          toString ((((numFmtsW.numFmt.map xlsxNumFmt.Marshal).filter
            (fun s => s != "")).length : Int)) ++ "\">" ++
          strConcat ((numFmtsW.numFmt.map xlsxNumFmt.Marshal).filter
            (fun s => s != "")) ++ "</numFmts>"
       else "")) ∧
    ((fontsW.Marshal).1 =
      (if 0 < ((fontsW.font.map xlsxFont.Marshal).filter
          (fun s => s != "")).length then
        "<fonts count=\"" ++
          toString ((((fontsW.font.map xlsxFont.Marshal).filter
            (fun s => s != "")).length : Int)) ++ "\">" ++
          strConcat ((fontsW.font.map xlsxFont.Marshal).filter
            (fun s => s != "")) ++ "</fonts>"
       else "")) ∧
    ((fillsW.Marshal).1 =
      (if 0 < ((fillsW.fill.map xlsxFill.Marshal).filter
          (fun s => s != "")).length then
        "<fills count=\"" ++
          toString ((((fillsW.fill.map xlsxFill.Marshal).filter
            (fun s => s != "")).length : Int)) ++ "\">" ++
          strConcat ((fillsW.fill.map xlsxFill.Marshal).filter
            (fun s => s != "")) ++ "</fills>"
       else "")) ∧
    ((bordersW.Marshal).1 =
      (if 0 < ((bordersW.border.map xlsxBorder.Marshal).filter
          (fun s => s != "")).length then
        "<borders count=\"" ++
          toString ((((bordersW.border.map xlsxBorder.Marshal).filter
            (fun s => s != "")).length : Int)) ++ "\">" ++
          strConcat ((bordersW.border.map xlsxBorder.Marshal).filter
            (fun s => s != "")) ++ "</borders>"
       else "")) ∧
    (cellStyleXfsW.Marshal [] [] [] =
      (if 0 < ((cellStyleXfsW.xf.map (fun xf => xf.Marshal [] [] [])).filter
          (fun s => s != "")).length then
        "<cellStyleXfs count=\"" ++
          toString ((((cellStyleXfsW.xf.map (fun xf => xf.Marshal [] [] [])).filter
            (fun s => s != "")).length : Int)) ++ "\">" ++
          strConcat ((cellStyleXfsW.xf.map (fun xf => xf.Marshal [] [] [])).filter
            (fun s => s != "")) ++ "</cellStyleXfs>"
       else "")) ∧
    (cellXfsW.Marshal [] [] [] =
      (if 0 < ((cellXfsW.xf.map (fun xf => xf.Marshal [] [] [])).filter
          (fun s => s != "")).length then
        "<cellXfs count=\"" ++
          toString ((((cellXfsW.xf.map (fun xf => xf.Marshal [] [] [])).filter
            (fun s => s != "")).length : Int)) ++ "\">" ++
          strConcat ((cellXfsW.xf.map (fun xf => xf.Marshal [] [] [])).filter
            (fun s => s != "")) ++ "</cellXfs>"
       else "")) ∧
    (cellStylesW.Marshal =
      (if 0 < ((cellStylesW.cellStyle.map xmlMarshalCellStyle).filter
          (fun s => s != "")).length then
        "<cellStyles count=\"" ++
          toString ((((cellStylesW.cellStyle.map xmlMarshalCellStyle).filter
            (fun s => s != "")).length : Int)) ++ "\">" ++
          strConcat ((cellStylesW.cellStyle.map xmlMarshalCellStyle).filter
            (fun s => s != "")) ++ "</cellStyles>"
       else "")) :=
  ⟨C4_count_attributes.1 numFmtsW rfl,
   C4_count_attributes.2.1 fontsW rfl,
   C4_count_attributes.2.2.1 fillsW,
   C4_count_attributes.2.2.2.1 bordersW,
   C4_count_attributes.2.2.2.2.1 cellStyleXfsW [] [] [] rfl,
   C4_count_attributes.2.2.2.2.2.1 cellXfsW [] [] [] rfl,
   C4_count_attributes.2.2.2.2.2.2 cellStylesW rfl⟩

/- ===================  Redis state lemmas (C5, C6)  =================== -/

theorem find?_filter_subset {α : Type} (p q : α → Bool) (l : List α)
    (hnone : l.find? p = none) : (l.filter q).find? p = none := by
  rw [List.find?_eq_none] at hnone ⊢
  intro x hx
  exact hnone x (List.mem_of_mem_filter hx)

theorem alGet_set_eq {β : Type} (l : List (String × β)) (k : String) (v : β) :
    alGet (alSet l k v) k = some v := by
  simp [alGet, alSet, List.find?]

theorem find?_filter_of_imp {α : Type} (p q : α → Bool) (l : List α)
    (himp : ∀ x, p x = true → q x = true) :
    (l.filter q).find? p = l.find? p := by
  induction l with
  | nil => rfl
  | cons a l ih =>
    by_cases hp : p a = true
    · have hq := himp a hp
      simp [List.filter_cons, hq, List.find?, hp, ih]
    · have hpf : p a = false := by simpa using hp
      by_cases hq : q a = true
      · simp [List.filter_cons, hq, List.find?, hpf, ih]
      · have hqf : q a = false := by simpa using hq
        simp [List.filter_cons, hqf, List.find?, hpf, ih]

theorem alGet_set_ne {β : Type} (l : List (String × β)) (k k' : String) (v : β)
    (h : k' ≠ k) : alGet (alSet l k v) k' = alGet l k' := by
  have hbe : (k == k') = false := beq_eq_false_iff_ne.mpr (Ne.symm h)
  simp only [alGet, alSet, List.find?, hbe, Bool.false_eq_true, if_false]
  rw [find?_filter_of_imp]
  intro x hx
  have hx1 : x.1 = k' := by simpa using hx
  simp [bne, hx1]
  exact h

theorem alGet_remove_self {β : Type} (l : List (String × β)) (k : String) :
    alGet (alRemove l k) k = none := by
  simp only [alGet, alRemove]
  rw [List.find?_eq_none.mpr]
  · rfl
  · intro x hx
    have := (List.mem_filter.mp hx).2
    simpa [bne] using this

theorem alGet_remove_none {β : Type} (l : List (String × β)) (k k' : String)
    (h : alGet l k' = none) : alGet (alRemove l k) k' = none := by
  simp only [alGet, alRemove] at h ⊢
  cases hf : l.find? (fun p => p.1 == k') with
  | some p => rw [hf] at h; simp at h
  | none =>
    rw [find?_filter_subset _ _ l hf]
    rfl

theorem hget_hset_eq (db : RedisDB) (h f : String) (v : List Nat) :
    hget (hset db h f v) h f = some v := by
  simp [hget, hset, alGet_set_eq]

theorem hget_hset_ne_hash (db : RedisDB) (h' f' h f : String) (v : List Nat)
    (hne : h ≠ h') : hget (hset db h' f' v) h f = hget db h f := by
  simp [hget, hset, alGet_set_ne _ _ _ _ hne]

theorem hget_zadd (db : RedisDB) (z m h f : String) :
    hget (zadd db z m) h f = hget db h f := by
  by_cases hm2 : m ∈ (alGet db.zsets z).getD []
  · simp [zadd, hm2]
  · simp [zadd, hm2, hget]

theorem hget_hdel_same (db : RedisDB) (h f : String) :
    hget (hdel db h f) h f = none := by
  unfold hdel
  cases hm : alGet db.hashes h with
  | none => simp only [hm]; simp [hget, hm]
  | some m =>
    simp only [hm]
    simp [hget, alGet_set_eq, alGet_remove_self]

theorem hget_hdel_none (db : RedisDB) (h' f' h f : String)
    (hnone : hget db h f = none) : hget (hdel db h' f') h f = none := by
  unfold hdel
  cases hm : alGet db.hashes h' with
  | none => simp only [hm]; exact hnone
  | some m =>
    simp only [hm]
    by_cases hh : h = h'
    · subst hh
      have hmf : alGet m f = none := by
        unfold hget at hnone
        rw [hm] at hnone
        simpa using hnone
      simp only [hget]
      rw [alGet_set_eq]
      simpa using alGet_remove_none m f' f hmf
    · simp only [hget]
      rw [alGet_set_ne _ _ _ _ hh]
      unfold hget at hnone
      exact hnone

theorem fold_hdel_none (n : String) :
    ∀ (l : List String) (db : RedisDB) (h : String),
      hget db h n = none →
      hget (l.foldl (fun d c => hdel d c n) db) h n = none := by
  intro l
  induction l with
  | nil => intro db h hh; exact hh
  | cons c l ih =>
    intro db h hh
    exact ih (hdel db c n) h (hget_hdel_none db c n h n hh)

theorem fold_hdel_mem (n : String) :
    ∀ (l : List String) (db : RedisDB) (ck : String), ck ∈ l →
      hget (l.foldl (fun d c => hdel d c n) db) ck n = none := by
  intro l
  induction l with
  | nil => intro db ck h; simp at h
  | cons c l ih =>
    intro db ck hck
    rcases List.mem_cons.mp hck with hck | hck
    · subst hck
      exact fold_hdel_none n l (hdel db ck n) ck (hget_hdel_same db ck n)
    · exact ih (hdel db c n) ck hck

theorem cellKeyPref_ne_sheet (s : String) (c : Int) : makeCellKeyPref s c ≠ s := by
  intro he
  have hl := congrArg String.length he
  unfold makeCellKeyPref at hl
  rw [String.length_append, String.length_append] at hl
  have : (":cell:" : String).length = 6 := by decide
  omega

/-- C5: for a well-shaped row key ("sheetName:rowNumber") of the sheet passed
to `ReadRow`, `RemoveRow` succeeds, a subsequent `ReadRow` of the same key
fails with the NotFound error (`RowNotFoundError`), and the row-number field
is gone from every cell map listed in the per-sheet cell index — the row and
all its cells are absent from the backend under that key. -/
theorem C5_remove_then_read (cs : RedisCellStore) (key sheetName n : String)
    (s : Sheet)
    (hsplit : splitColonS key = [sheetName, n])
    (hname : s.name = sheetName) :
    (cs.RemoveRow key).1 = .ok () ∧
    (((cs.RemoveRow key).2).ReadRow key s).1 =
      .error (.rowNotFound key "no such row") ∧
    (∀ ck ∈ zrangeAll cs.db (makeSheetCellsStore sheetName),
      hget ((cs.RemoveRow key).2).db ck n = none) := by
  have hrm : cs.RemoveRow key = (.ok (),
      { cs with db := (hdel
          ((zrangeAll cs.db (makeSheetCellsStore sheetName)).foldl
            (fun db cell => hdel db cell n) cs.db) sheetName n) }) := by
    simp only [RedisCellStore.RemoveRow, hsplit]
  refine ⟨by rw [hrm], ?_, ?_⟩
  · rw [hrm]
    simp only [RedisCellStore.ReadRow, hsplit, hname, makeSheetRowsStore]
    have hg : hget (hdel
        ((zrangeAll cs.db (makeSheetCellsStore sheetName)).foldl
          (fun db cell => hdel db cell n) cs.db) sheetName n) sheetName n = none :=
      hget_hdel_same _ _ _
    by_cases hcase : (cs.sheetName == "") = true
    · rw [if_pos hcase]
      simp only [hg]
    · rw [if_neg hcase]
      simp only [hg]
  · intro ck hck
    rw [hrm]
    exact hget_hdel_none _ _ _ _ _
      (fold_hdel_mem n (zrangeAll cs.db (makeSheetCellsStore sheetName))
        cs.db ck hck)

theorem C5_witness :
    ((csA.RemoveRow (rowKey "Test" 3)).2.ReadRow (rowKey "Test" 3)
        { name := "Test" }).1 =
      .error (.rowNotFound (rowKey "Test" 3) "no such row") :=
  (C5_remove_then_read csA (rowKey "Test" 3) "Test" "3" { name := "Test" }
    (by decide) rfl).2.1

/-- C6: when the destination row-map field is already occupied, `MoveRow`
fails with the Conflict error before deleting the old row-map entry; the only
state change on this path is the hot-cell flush, which touches per-column
cell maps and the cell index, never the per-sheet row map — so the source row
remains readable at its original key afterwards, decoding to the same scalar
fields. -/
theorem C6_moveRow_conflict (cs : RedisCellStore) (rr : RedisRow) (index : Int)
    (s : Sheet) (row : Row) (maxCol : Int)
    (hocc : (hget cs.db (makeSheetRowsStore rr.sheetName)
      (toString index)).isSome = true)
    (hstored : hget cs.db (makeSheetRowsStore rr.sheetName)
      (makeRowNum rr.row.num) = some (writeRowRecord row maxCol))
    (hsplit : splitColonS (rowKey rr.sheetName rr.row.num) =
      [rr.sheetName, makeRowNum rr.row.num])
    (hname : s.name = rr.sheetName)
    (hol : row.outlineLevel < 256) :
    (cs.MoveRow rr index).1 = .error (.conflict index) ∧
    (((cs.MoveRow rr index).2.1).ReadRow (rowKey rr.sheetName rr.row.num) s).1 =
      .ok (row, maxCol) := by
  have hpres : ∀ f, hget (match rr.currentCell with
      | some cell => flushCell cs.db rr.sheetName (makeRowNum rr.row.num) cell
      | none => cs.db) rr.sheetName f = hget cs.db rr.sheetName f := by
    intro f
    cases hc : rr.currentCell with
    | none => rfl
    | some c =>
      simp only [flushCell]
      rw [hget_hset_ne_hash _ _ _ _ _ _ (fun he =>
        cellKeyPref_ne_sheet rr.sheetName c.num he.symm), hget_zadd]
  have hocc2 : (hget (match rr.currentCell with
      | some cell => flushCell cs.db rr.sheetName (makeRowNum rr.row.num) cell
      | none => cs.db) rr.sheetName (toString index)).isSome = true := by
    rw [hpres]
    simpa [makeSheetRowsStore] using hocc
  obtain ⟨v, hv⟩ := Option.isSome_iff_exists.mp hocc2
  have hmv : cs.MoveRow rr index = (.error (.conflict index),
      { (if (cs.sheetName == "") = true then
          { cs with sheetName := rr.sheetName } else cs) with
        db := (match rr.currentCell with
          | some cell => flushCell cs.db rr.sheetName (makeRowNum rr.row.num) cell
          | none => cs.db) }, rr) := by
    simp only [RedisCellStore.MoveRow, makeSheetRowsStore]
    by_cases hcase : (cs.sheetName == "") = true
    · rw [if_pos hcase]
      simp only [hv]
    · rw [if_neg hcase]
      simp only [hv]
  refine ⟨by rw [hmv], ?_⟩
  rw [hmv]
  simp only [RedisCellStore.ReadRow, hsplit, hname, makeSheetRowsStore]
  have hg2 : hget (match rr.currentCell with
      | some cell => flushCell cs.db rr.sheetName (makeRowNum rr.row.num) cell
      | none => cs.db) rr.sheetName (makeRowNum rr.row.num) =
      some (writeRowRecord row maxCol) := by
    rw [hpres]
    simpa [makeSheetRowsStore] using hstored
  by_cases hcase2 : ((if (cs.sheetName == "") = true then
      { cs with sheetName := rr.sheetName } else cs).sheetName == "") = true
  · rw [if_pos hcase2]
    simp only [hg2, readRedisRow_roundtrip row maxCol hol]
  · rw [if_neg hcase2]
    simp only [hg2, readRedisRow_roundtrip row maxCol hol]

theorem C6_witness :
    (csAB.MoveRow rrA 5).1 = .error (.conflict 5) ∧
    ((csAB.MoveRow rrA 5).2.1.ReadRow (rowKey "Test" 3) { name := "Test" }).1 =
      .ok (rowA, -1) :=
  C6_moveRow_conflict csAB rrA 5 { name := "Test" } rowA (-1) rfl rfl
    (by decide) rfl (by decide)
